import Mathlib

/-!
# Pixel Runner: a shallow embedding of `src/GameFile/game.js`

The simulation core of the endless runner is embedded as pure functions on an
explicit game state.

Modelling conventions.

* JavaScript numbers are idealised as exact rationals (`ℚ`); counters that the
  program only ever increments or decrements by one (`score`, `lives`,
  `jumpsLeft`) are integers.
* `Math.random()` is a stream `rand : ℕ → ℚ`; the state field `rngPos` counts the
  draws made so far, so the n-th call of `Math.random()` returns `rand n`.
* `canvas.width` comes from the page, which is not part of the sources; it is
  the parameter `cw`.
* `audio.play()` appends a cue to the log `cues` (oldest first).
* The key set is sampled once per frame (`Keys`); the menu, help and restart
  handlers are the constructors of `Cmd`.
-/

set_option autoImplicit false

namespace PixelRunner

/-! ## Constants (game.js 19-42) -/

def GROUND_Y : ℚ := 300
def MAX_JUMP_HEIGHT : ℚ := 80

def SPIKE_W : ℚ := 40
def SPIKE_H : ℚ := 40

def HERO_FRAME_COUNT : ℕ := 4
def HERO_FRAME_DURATION : ℚ := 1 / 10
def HERO_FRAME_W : ℚ := 32
def HERO_FRAME_H : ℚ := 32

def COIN_FRAME_COUNT : ℕ := 6
def COIN_FRAME_DURATION : ℚ := 8 / 100
def COIN_FRAME_W : ℚ := 16
def COIN_FRAME_H : ℚ := 16

def PLATFORM_W : ℚ := 200
def PLATFORM_H : ℚ := 20
def PLATFORM_MIN_Y : ℚ := GROUND_Y - 140
def PLATFORM_MAX_Y : ℚ := GROUND_Y - 60

def SCROLL_SPEED : ℚ := 220

/-! ## State (game.js 44-66) -/

/-- An axis-aligned box: coins, spikes and the platform. -/
structure Box where
  x : ℚ
  y : ℚ
  w : ℚ
  h : ℚ
deriving DecidableEq

/-- The `hero` object. -/
structure Hero where
  x : ℚ
  y : ℚ
  w : ℚ
  h : ℚ
  vy : ℚ
  onGround : Bool
  jumpsLeft : ℤ
deriving DecidableEq

/-- The box of the hero, as read by `aabb(hero, _)`. -/
def Hero.toBox (h : Hero) : Box := { x := h.x, y := h.y, w := h.w, h := h.h }

/-- The `world` object; `platform: null` is `none`. -/
structure World where
  score : ℤ
  lives : ℤ
  hero : Hero
  coins : List Box
  spikes : List Box
  platform : Option Box
deriving DecidableEq

/-- The four sound effects. -/
inductive Cue where
  | jump
  | coin
  | hit
  | gameover
deriving DecidableEq

/-- The keys read by `update`. -/
structure Keys where
  right : Bool
  left : Bool
  space : Bool
deriving DecidableEq

/-- All mutable state of the closure. -/
structure Game where
  world : World
  last : ℚ
  spaceWasDown : Bool
  paused : Bool
  gameOver : Bool
  playing : Bool
  coinTimer : ℚ
  coinInterval : ℚ
  spikeTimer : ℚ
  spikeInterval : ℚ
  heroFrame : ℕ
  heroFrameTimer : ℚ
  coinFrame : ℕ
  coinFrameTimer : ℚ
  helpHidden : Bool
  cues : List Cue
  rngPos : ℕ
deriving DecidableEq

/-- The state created by the declarations at game.js 45-66, before `showMenu()`. -/
def initGame (now : ℚ) (helpHidden : Bool) : Game :=
  { world :=
      { score := 0, lives := 3,
        hero := { x := 50, y := GROUND_Y, w := 40, h := 40, vy := 0, onGround := true,
                  jumpsLeft := 2 },
        coins := [], spikes := [], platform := none },
    last := now, spaceWasDown := false,
    paused := true, gameOver := false, playing := false,
    coinTimer := 0, coinInterval := 1 / 2, spikeTimer := 0, spikeInterval := 12 / 10,
    heroFrame := 0, heroFrameTimer := 0, coinFrame := 0, coinFrameTimer := 0,
    helpHidden := helpHidden, cues := [], rngPos := 0 }

/-! ## Helpers (game.js 89-173) -/

/-- `randRange(min, max)` evaluated on the draw `r`. -/
def randRange (lo hi r : ℚ) : ℚ := lo + r * (hi - lo)

/-- `aabb(a, b)`. -/
def aabb (a b : Box) : Bool :=
  !(decide (a.x + a.w < b.x) ||
    decide (b.x + b.w < a.x) ||
    decide (a.y + a.h < b.y) ||
    decide (b.y + b.h < a.y))

/-- `groundCoinY()`: the value and the position of the next draw. -/
def groundCoinY (rand : ℕ → ℚ) (pos : ℕ) : ℚ × ℕ :=
  let highest := GROUND_Y - MAX_JUMP_HEIGHT * 2
  let lowest := GROUND_Y
  (highest + rand pos * (lowest - highest), pos + 1)

/-- `platformCoinY(platform)`: the value and the position of the next draw. -/
def platformCoinY (rand : ℕ → ℚ) (pos : ℕ) (platform : Box) : ℚ × ℕ :=
  let highest := max 0 (platform.y - MAX_JUMP_HEIGHT * 2)
  let lowest := GROUND_Y
  let bandTop := platform.y - 10
  let bandBottom := platform.y + HERO_FRAME_H + 10
  let safeBandTop := max highest bandTop
  let safeBandBottom := min lowest bandBottom
  let hasAbove := decide (safeBandTop > highest)
  let hasBelow := decide (safeBandBottom < lowest)
  if hasAbove && hasBelow then
    if rand pos < 1 / 2 then
      (highest + rand (pos + 1) * (safeBandTop - highest), pos + 2)
    else
      (safeBandBottom + rand (pos + 1) * (lowest - safeBandBottom), pos + 2)
  else if hasAbove then (highest + rand pos * (safeBandTop - highest), pos + 1)
  else if hasBelow then (safeBandBottom + rand pos * (lowest - safeBandBottom), pos + 1)
  else groundCoinY rand pos

/-- The spike pushed by `spawnPlatformSpike(platform)`. -/
def platformSpike (hero : Hero) (platform : Box) : Box :=
  { x := platform.x + platform.w / 2 - SPIKE_W / 2,
    y := platform.y + hero.h - SPIKE_H,
    w := SPIKE_W,
    h := SPIKE_H }

/-- `spawnPlatformSpike(platform)`. -/
def spawnPlatformSpike (platform : Box) (g : Game) : Game :=
  { g with world := { g.world with
      spikes := g.world.spikes ++ [platformSpike g.world.hero platform] } }

/-- The `y` chosen by `spawnCoin()` and the position of the next draw. -/
def spawnCoinY (cw : ℚ) (rand : ℕ → ℚ) (g : Game) : ℚ × ℕ :=
  let spawnX := cw + 40
  match g.world.platform with
  | some p =>
    if decide (spawnX ≥ p.x) && decide (spawnX ≤ p.x + p.w) then platformCoinY rand g.rngPos p
    else groundCoinY rand g.rngPos
  | none => groundCoinY rand g.rngPos

/-- `spawnCoin()`. -/
def spawnCoin (cw : ℚ) (rand : ℕ → ℚ) (g : Game) : Game :=
  let spawnX := cw + 40
  let r := spawnCoinY cw rand g
  { g with
    world := { g.world with coins := g.world.coins ++ [{ x := spawnX, y := r.1, w := 24, h := 24 }] },
    rngPos := r.2 }

/-- `spawnSpike()`. -/
def spawnSpike (cw : ℚ) (g : Game) : Game :=
  let spawnX := cw + 40
  { g with world := { g.world with
      spikes := g.world.spikes ++
        [{ x := spawnX, y := GROUND_Y + g.world.hero.h - SPIKE_H, w := SPIKE_W, h := SPIKE_H }] } }

/-- `maybeSpawnPlatform()`; the draw is made only when no platform is active. -/
def maybeSpawnPlatform (cw : ℚ) (rand : ℕ → ℚ) (g : Game) : Game :=
  match g.world.platform with
  | some _ => g
  | none =>
    if rand g.rngPos < 4 / 1000 then
      let spawnX := cw + 40
      let py := PLATFORM_MIN_Y + rand (g.rngPos + 1) * (PLATFORM_MAX_Y - PLATFORM_MIN_Y)
      let p : Box := { x := spawnX, y := py, w := PLATFORM_W, h := PLATFORM_H }
      spawnPlatformSpike p
        { g with world := { g.world with platform := some p }, rngPos := g.rngPos + 2 }
    else { g with rngPos := g.rngPos + 1 }

/-! ## `start`, `showMenu`, `startFromMenu` (game.js 175-194, 375-402) -/

/-- `start()`; `now` is the value of `performance.now()`. -/
def start (rand : ℕ → ℚ) (now : ℚ) (g : Game) : Game :=
  { g with
    world :=
      { score := 0, lives := 3,
        hero := { g.world.hero with x := 50, y := GROUND_Y, vy := 0, onGround := true,
                                    jumpsLeft := 2 },
        coins := [], spikes := [], platform := none },
    heroFrame := 0, heroFrameTimer := 0, coinFrame := 0, coinFrameTimer := 0,
    spaceWasDown := false, last := now,
    coinTimer := 0, coinInterval := randRange (25 / 100) (6 / 10) (rand g.rngPos),
    spikeTimer := 0, spikeInterval := randRange (9 / 10) (17 / 10) (rand (g.rngPos + 1)),
    rngPos := g.rngPos + 2 }

/-- `showMenu()`. -/
def showMenu (g : Game) : Game :=
  { g with playing := false, paused := true, gameOver := false }

/-- `startFromMenu()`. -/
def startFromMenu (rand : ℕ → ℚ) (now : ℚ) (g : Game) : Game :=
  start rand now { g with playing := true, paused := false, gameOver := false }

/-! ## `update` (game.js 197-318), one definition per block of the function -/

/-- Lines 198-203: horizontal move and clamp into the viewport. -/
def moveHero (cw dt : ℚ) (k : Keys) (g : Game) : Game :=
  let speed : ℚ := 220
  let x1 := if k.right then g.world.hero.x + speed * dt else g.world.hero.x
  let x2 := if k.left then x1 - speed * dt else x1
  { g with world := { g.world with hero := { g.world.hero with
      x := max 0 (min (cw - g.world.hero.w) x2) } } }

/-- The condition of the jump branch at line 206. -/
def jumpTaken (k : Keys) (g : Game) : Bool :=
  k.space && !g.spaceWasDown && decide (g.world.hero.jumpsLeft > 0)

/-- Lines 205-213: edge-detected jump, then remember the key. -/
def jumpStep (k : Keys) (g : Game) : Game :=
  let g1 :=
    if jumpTaken k g then
      { g with
        world := { g.world with hero := { g.world.hero with
          vy := -380, onGround := false, jumpsLeft := g.world.hero.jumpsLeft - 1 } },
        cues := g.cues ++ [Cue.jump] }
    else g
  { g1 with spaceWasDown := k.space }

/-- The ground test of line 224 on the integrated height. -/
def groundHit (y1 : ℚ) : Bool := decide (y1 ≥ GROUND_Y)

/-- The platform-landing test of lines 233-236, on the moved hero, the integrated
velocity `vyAfter` and the integrated bottom edge `heroBottom`. -/
def platformHit (hero : Hero) (vyAfter heroBottom : ℚ) (p : Box) : Bool :=
  let platformTop := p.y + hero.h
  let over := decide (hero.x + hero.w > p.x) && decide (hero.x < p.x + p.w)
  decide (vyAfter ≥ 0) && over && decide (heroBottom ≥ platformTop - 10) &&
    decide (heroBottom ≤ platformTop + 10)

/-- The platform the hero lands on in lines 231-241, if any. -/
def platformLanding (hero : Hero) (vyAfter heroBottom : ℚ) : Option Box → Option Box
  | some p => if platformHit hero vyAfter heroBottom p then some p else none
  | none => none

/-- Lines 215-244 on the hero alone: gravity, integration, ground and platform landing. -/
def physicsHero (dt : ℚ) (platform : Option Box) (hero : Hero) : Hero :=
  let vy1 := hero.vy + 900 * dt
  let y1 := hero.y + vy1 * dt
  let vyAfter := vy1
  let heroBottom := y1 + hero.h
  let h1 : Hero := { hero with vy := vy1, y := y1 }
  let landed1 := groundHit y1
  let h2 : Hero := if landed1 then { h1 with y := GROUND_Y, vy := 0 } else h1
  let onPlatform : Option Box := platformLanding h2 vyAfter heroBottom platform
  let h3 : Hero :=
    match onPlatform with
    | some p => { h2 with y := p.y, vy := 0 }
    | none => h2
  let landed := landed1 || onPlatform.isSome
  let h4 : Hero := { h3 with onGround := landed }
  if landed then { h4 with jumpsLeft := 2 } else h4

/-- Lines 215-244. -/
def physics (dt : ℚ) (g : Game) : Game :=
  { g with world := { g.world with hero := physicsHero dt g.world.platform g.world.hero } }

/-- Lines 247-252: the coin timer. -/
def coinTimerStep (cw : ℚ) (rand : ℕ → ℚ) (dt : ℚ) (g : Game) : Game :=
  let t := g.coinTimer + dt
  if t ≥ g.coinInterval then
    spawnCoin cw rand
      { g with coinTimer := t - g.coinInterval,
               coinInterval := randRange (25 / 100) (6 / 10) (rand g.rngPos),
               rngPos := g.rngPos + 1 }
  else { g with coinTimer := t }

/-- Lines 254-259: the spike timer. -/
def spikeTimerStep (cw : ℚ) (rand : ℕ → ℚ) (dt : ℚ) (g : Game) : Game :=
  let t := g.spikeTimer + dt
  if t ≥ g.spikeInterval then
    spawnSpike cw
      { g with spikeTimer := t - g.spikeInterval,
               spikeInterval := randRange (9 / 10) (17 / 10) (rand g.rngPos),
               rngPos := g.rngPos + 1 }
  else { g with spikeTimer := t }

/-- The callback of the two `forEach` at lines 264-265. -/
def scrollBox (dt : ℚ) (b : Box) : Box := { b with x := b.x - SCROLL_SPEED * dt }

/-- Lines 266-269: move the platform and drop it once its right edge is left of 0. -/
def scrollPlatform (dt : ℚ) (platform : Option Box) : Option Box :=
  match platform with
  | some p =>
    let p1 := scrollBox dt p
    if p1.x + p1.w < 0 then none else some p1
  | none => none

/-- Lines 263-269: scroll coins, spikes and the platform. -/
def scroll (dt : ℚ) (g : Game) : Game :=
  { g with world := { g.world with
      coins := g.world.coins.map (scrollBox dt),
      spikes := g.world.spikes.map (scrollBox dt),
      platform := scrollPlatform dt g.world.platform } }

/-- Lines 271-273: cull what has left the screen. -/
def cull (g : Game) : Game :=
  { g with world := { g.world with
      coins := g.world.coins.filter (fun c => decide (c.x + c.w > 0)),
      spikes := g.world.spikes.filter (fun s => decide (s.x + s.w > 0)) } }

/-- The effectful `filter` of lines 276-282, run over the coins from left to right:
kept coins, score and cue log. -/
def coinCollision (hero : Hero) : List Box → ℤ → List Cue → List Box × ℤ × List Cue
  | [], score, cues => ([], score, cues)
  | c :: cs, score, cues =>
    if !aabb hero.toBox c then
      let r := coinCollision hero cs score cues
      (c :: r.1, r.2.1, r.2.2)
    else
      coinCollision hero cs (score + 1) (cues ++ [Cue.coin])

/-- Lines 275-282. -/
def coinStep (g : Game) : Game :=
  let r := coinCollision g.world.hero g.world.coins g.world.score g.cues
  { g with world := { g.world with coins := r.1, score := r.2.1 }, cues := r.2.2 }

/-- The effectful `filter` of lines 285-293, run over the spikes from left to right:
kept spikes, lives and cue log. -/
def spikeCollision (hero : Hero) : List Box → ℤ → List Cue → List Box × ℤ × List Cue
  | [], lives, cues => ([], lives, cues)
  | s :: ss, lives, cues =>
    if !aabb hero.toBox s then
      let r := spikeCollision hero ss lives cues
      (s :: r.1, r.2.1, r.2.2)
    else if lives > 0 then
      spikeCollision hero ss (lives - 1) (cues ++ [Cue.hit])
    else
      spikeCollision hero ss lives cues

/-- Lines 284-293. -/
def spikeStep (g : Game) : Game :=
  let r := spikeCollision g.world.hero g.world.spikes g.world.lives g.cues
  { g with world := { g.world with spikes := r.1, lives := r.2.1 }, cues := r.2.2 }

/-- Lines 295-304: the game-over transition. -/
def gameOverCheck (g : Game) : Game :=
  if decide (g.world.lives ≤ 0) && !g.gameOver then
    { g with world := { g.world with lives := 0 },
             gameOver := true, paused := true,
             cues := g.cues ++ [Cue.gameover] }
  else g

/-- Lines 306-317: the two animation clocks. -/
def animate (dt : ℚ) (g : Game) : Game :=
  let ht := g.heroFrameTimer + dt
  let g1 :=
    if ht ≥ HERO_FRAME_DURATION then
      { g with heroFrameTimer := ht - HERO_FRAME_DURATION,
               heroFrame := (g.heroFrame + 1) % HERO_FRAME_COUNT }
    else { g with heroFrameTimer := ht }
  let ct := g1.coinFrameTimer + dt
  if ct ≥ COIN_FRAME_DURATION then
    { g1 with coinFrameTimer := ct - COIN_FRAME_DURATION,
              coinFrame := (g1.coinFrame + 1) % COIN_FRAME_COUNT }
  else { g1 with coinFrameTimer := ct }

/-- The state of `update(dt)` just before the coin collision (lines 197-273). -/
def preCollision (cw : ℚ) (rand : ℕ → ℚ) (dt : ℚ) (k : Keys) (g : Game) : Game :=
  cull (scroll dt (maybeSpawnPlatform cw rand (spikeTimerStep cw rand dt
    (coinTimerStep cw rand dt (physics dt (jumpStep k (moveHero cw dt k g)))))))

/-- `update(dt)`. -/
def update (cw : ℚ) (rand : ℕ → ℚ) (dt : ℚ) (k : Keys) (g : Game) : Game :=
  animate dt (gameOverCheck (spikeStep (coinStep (preCollision cw rand dt k g))))

/-! ## `loop` and the event handlers (game.js 364-373, 404-454) -/

/-- `loop(now)`; `draw()` does not change the state. -/
def loop (cw : ℚ) (rand : ℕ → ℚ) (now : ℚ) (k : Keys) (g : Game) : Game :=
  let dt := min (33 / 1000) ((now - g.last) / 1000)
  let g1 := { g with last := now }
  if !g1.paused && !g1.gameOver && g1.playing then update cw rand dt k g1 else g1

/-- The `r` key handler (lines 405-415). -/
def restartKey (rand : ℕ → ℚ) (now : ℚ) (g : Game) : Game :=
  if g.playing then start rand now { g with paused := false, gameOver := false } else g

/-- The `p` key handler (lines 417-419). -/
def pauseKey (g : Game) : Game :=
  if g.playing && !g.gameOver then { g with paused := !g.paused } else g

/-- The help button handler (lines 441-444), also the first branch of the Escape handler. -/
def helpOpen (g : Game) : Game :=
  let g1 := { g with helpHidden := false }
  if g1.playing && !g1.paused then { g1 with paused := true } else g1

/-- The close button handler (lines 446-449), also the second branch of the Escape handler. -/
def helpClose (g : Game) : Game :=
  let g1 := { g with helpHidden := true }
  if g1.playing && g1.paused && !g1.gameOver then { g1 with paused := false } else g1

/-- The Escape handler (lines 429-438). -/
def escapeKey (g : Game) : Game :=
  if g.helpHidden then helpOpen g else helpClose g

/-- What the page can do to the game: an animation frame or one of the handlers. -/
inductive Cmd where
  | frame (now : ℚ) (keys : Keys)
  | startClick (now : ℚ)
  | returnMenuClick
  | restartKey (now : ℚ)
  | pauseKey
  | escapeKey
  | helpOpen
  | helpClose

/-- Run one command. -/
def step (cw : ℚ) (rand : ℕ → ℚ) (g : Game) : Cmd → Game
  | Cmd.frame now keys => loop cw rand now keys g
  | Cmd.startClick now => startFromMenu rand now g
  | Cmd.returnMenuClick => showMenu g
  | Cmd.restartKey now => restartKey rand now g
  | Cmd.pauseKey => pauseKey g
  | Cmd.escapeKey => escapeKey g
  | Cmd.helpOpen => helpOpen g
  | Cmd.helpClose => helpClose g

/-- Run a sequence of commands, oldest first. -/
def run (cw : ℚ) (rand : ℕ → ℚ) (g : Game) (cmds : List Cmd) : Game :=
  cmds.foldl (step cw rand) g

/-- The commands that keep the current session: frames, pause and help, as opposed to
start, restart and return to menu. -/
def Cmd.inSession : Cmd → Bool
  | Cmd.frame _ _ => true
  | Cmd.pauseKey => true
  | Cmd.escapeKey => true
  | Cmd.helpOpen => true
  | Cmd.helpClose => true
  | _ => false

/-- The commands that open a session from `g`: the start button, or the restart key
while in game. -/
def Cmd.startsSession (g : Game) : Cmd → Bool
  | Cmd.startClick _ => true
  | Cmd.restartKey _ => g.playing
  | _ => false

/-- How many times the game-over cue occurs in a cue log. -/
def gameoverCount (cues : List Cue) : ℕ := cues.count Cue.gameover

/-- The session invariant: lives are not negative, the game-over flag says exactly that
no life is left, and the log holds `base` game-over cues plus one if the flag is set. -/
def SessionInv (base : ℕ) (g : Game) : Prop :=
  0 ≤ g.world.lives ∧ (g.gameOver = true ↔ g.world.lives = 0) ∧
    gameoverCount g.cues = base + (if g.gameOver = true then 1 else 0)

instance (base : ℕ) (g : Game) : Decidable (SessionInv base g) := by
  unfold SessionInv
  infer_instance

/-- Run `update` over a list of `(dt, keys)` ticks, oldest first. -/
def ticks (cw : ℚ) (rand : ℕ → ℚ) (g : Game) (ts : List (ℚ × Keys)) : Game :=
  ts.foldl (fun s t => update cw rand t.1 t.2 s) g

/-! ## Sample inputs -/

/-- No key held. -/
def noKeys : Keys := { right := false, left := false, space := false }

/-- Only the jump key held. -/
def spaceKey : Keys := { right := false, left := false, space := true }

/-- A random stream that always draws one half. -/
def halfRand : ℕ → ℚ := fun _ => 1 / 2

/-- The opening state with one coin inside the hero box. -/
def coinScene : Game :=
  { initGame 0 true with
    world := { (initGame 0 true).world with coins := [{ x := 50, y := 300, w := 24, h := 24 }] } }

/-- The opening state with one life left and two spikes on the hero. -/
def spikeScene : Game :=
  { initGame 0 true with
    world := { (initGame 0 true).world with
      lives := 1,
      spikes := [{ x := 50, y := 300, w := 40, h := 40 }, { x := 60, y := 300, w := 40, h := 40 }] } }

/-- A random stream that draws one half first and 0 afterwards. -/
def bandRand : ℕ → ℚ := fun n => if n = 0 then 1 / 2 else 0

/-- A random stream that always draws one quarter. -/
def quarterRand : ℕ → ℚ := fun _ => 1 / 4

/-- A platform in mid range, a little after its spawn on a canvas of width 800. -/
def bandPlatform : Box := { x := 830, y := 200, w := 200, h := 20 }

/-- The opening state with `bandPlatform` active. -/
def platformScene : Game :=
  { initGame 0 true with
    world := { (initGame 0 true).world with platform := some bandPlatform } }

/-! ## Specification-side definitions -/

/-- The four session states of the specification. -/
inductive Session where
  | menu
  | playing
  | paused
  | gameOver
deriving DecidableEq

/-- The session state that the flags `playing`, `paused`, `gameOver` encode, if any:
Menu = (false, true, false), Playing = (true, false, false), Paused = (true, true, false),
GameOver = (true, true, true). -/
def sessionOf (g : Game) : Option Session :=
  match g.playing, g.paused, g.gameOver with
  | false, true, false => some Session.menu
  | true, false, false => some Session.playing
  | true, true, false => some Session.paused
  | true, true, true => some Session.gameOver
  | _, _, _ => none

/-- The sum of the `dt` of a list of ticks. -/
def totalTime (ts : List (ℚ × Keys)) : ℚ := (ts.map (fun t => t.1)).sum

/-- Ticks with no key held, one per `dt`. -/
def idleTicks (dts : List ℚ) : List (ℚ × Keys) := dts.map (fun d => (d, noKeys))

/-- A state in GameOver: no life left, all three flags set. -/
def gameOverScene : Game :=
  { initGame 0 true with
    world := { (initGame 0 true).world with lives := 0, score := 7 },
    playing := true, paused := true, gameOver := true }

/-- The state that `start` leaves behind: score 0, three lives, the hero at rest at
`x = 50` on the ground with two jumps, no coins, spikes or platform, spawn timers and
animation clocks at 0, the jump edge memory cleared, and the two spawn intervals inside
their ranges. -/
def IsReset (s : Game) : Prop :=
  s.world.score = 0 ∧ s.world.lives = 3 ∧
  s.world.hero.x = 50 ∧ s.world.hero.y = GROUND_Y ∧ s.world.hero.vy = 0 ∧
  s.world.hero.onGround = true ∧ s.world.hero.jumpsLeft = 2 ∧
  s.world.coins = [] ∧ s.world.spikes = [] ∧ s.world.platform = none ∧
  s.coinTimer = 0 ∧ s.spikeTimer = 0 ∧
  s.heroFrame = 0 ∧ s.heroFrameTimer = 0 ∧ s.coinFrame = 0 ∧ s.coinFrameTimer = 0 ∧
  s.spaceWasDown = false ∧
  (25 / 100 ≤ s.coinInterval ∧ s.coinInterval < 6 / 10) ∧
  (9 / 10 ≤ s.spikeInterval ∧ s.spikeInterval < 17 / 10)

instance (s : Game) : Decidable (IsReset s) := by
  unfold IsReset
  infer_instance

/-- A platform in mid range that has scrolled to the middle of the canvas. -/
def midPlatform : Box := { x := 400, y := 200, w := 200, h := 20 }

/-- The hero standing on `midPlatform`, a little right of its left edge. -/
def standingScene : Game :=
  { initGame 0 true with
    world := { (initGame 0 true).world with
      hero := { (initGame 0 true).world.hero with x := 450, y := 200 },
      platform := some midPlatform } }

/-- The hero about to pass ground height while `bandPlatform` is active. -/
def fallingScene : Game :=
  { initGame 0 true with
    world := { (initGame 0 true).world with
      hero := { (initGame 0 true).world.hero with x := 850, y := 299, vy := 300,
                                                  onGround := false },
      platform := some bandPlatform } }

@[simp] theorem moveHero_lives (cw dt : ℚ) (k : Keys) (g : Game) :
    (moveHero cw dt k g).world.lives = g.world.lives := rfl

@[simp] theorem moveHero_score (cw dt : ℚ) (k : Keys) (g : Game) :
    (moveHero cw dt k g).world.score = g.world.score := rfl

@[simp] theorem moveHero_gameOver (cw dt : ℚ) (k : Keys) (g : Game) :
    (moveHero cw dt k g).gameOver = g.gameOver := rfl

@[simp] theorem moveHero_paused (cw dt : ℚ) (k : Keys) (g : Game) :
    (moveHero cw dt k g).paused = g.paused := rfl

@[simp] theorem moveHero_playing (cw dt : ℚ) (k : Keys) (g : Game) :
    (moveHero cw dt k g).playing = g.playing := rfl

@[simp] theorem moveHero_helpHidden (cw dt : ℚ) (k : Keys) (g : Game) :
    (moveHero cw dt k g).helpHidden = g.helpHidden := rfl

@[simp] theorem jumpStep_lives (k : Keys) (g : Game) :
    (jumpStep k g).world.lives = g.world.lives := by
  simp only [jumpStep]
  split <;> rfl

@[simp] theorem jumpStep_score (k : Keys) (g : Game) :
    (jumpStep k g).world.score = g.world.score := by
  simp only [jumpStep]
  split <;> rfl

@[simp] theorem jumpStep_gameOver (k : Keys) (g : Game) :
    (jumpStep k g).gameOver = g.gameOver := by
  simp only [jumpStep]
  split <;> rfl

@[simp] theorem jumpStep_paused (k : Keys) (g : Game) :
    (jumpStep k g).paused = g.paused := by
  simp only [jumpStep]
  split <;> rfl

@[simp] theorem jumpStep_playing (k : Keys) (g : Game) :
    (jumpStep k g).playing = g.playing := by
  simp only [jumpStep]
  split <;> rfl

@[simp] theorem jumpStep_helpHidden (k : Keys) (g : Game) :
    (jumpStep k g).helpHidden = g.helpHidden := by
  simp only [jumpStep]
  split <;> rfl

@[simp] theorem physics_lives (dt : ℚ) (g : Game) :
    (physics dt g).world.lives = g.world.lives := rfl

@[simp] theorem physics_score (dt : ℚ) (g : Game) :
    (physics dt g).world.score = g.world.score := rfl

@[simp] theorem physics_gameOver (dt : ℚ) (g : Game) :
    (physics dt g).gameOver = g.gameOver := rfl

@[simp] theorem physics_paused (dt : ℚ) (g : Game) :
    (physics dt g).paused = g.paused := rfl

@[simp] theorem physics_playing (dt : ℚ) (g : Game) :
    (physics dt g).playing = g.playing := rfl

@[simp] theorem physics_helpHidden (dt : ℚ) (g : Game) :
    (physics dt g).helpHidden = g.helpHidden := rfl

@[simp] theorem coinTimerStep_lives (cw : ℚ) (rand : ℕ → ℚ) (dt : ℚ) (g : Game) :
    (coinTimerStep cw rand dt g).world.lives = g.world.lives := by
  simp only [coinTimerStep]
  split <;> rfl

@[simp] theorem coinTimerStep_score (cw : ℚ) (rand : ℕ → ℚ) (dt : ℚ) (g : Game) :
    (coinTimerStep cw rand dt g).world.score = g.world.score := by
  simp only [coinTimerStep]
  split <;> rfl

@[simp] theorem coinTimerStep_gameOver (cw : ℚ) (rand : ℕ → ℚ) (dt : ℚ) (g : Game) :
    (coinTimerStep cw rand dt g).gameOver = g.gameOver := by
  simp only [coinTimerStep]
  split <;> rfl

@[simp] theorem coinTimerStep_paused (cw : ℚ) (rand : ℕ → ℚ) (dt : ℚ) (g : Game) :
    (coinTimerStep cw rand dt g).paused = g.paused := by
  simp only [coinTimerStep]
  split <;> rfl

@[simp] theorem coinTimerStep_playing (cw : ℚ) (rand : ℕ → ℚ) (dt : ℚ) (g : Game) :
    (coinTimerStep cw rand dt g).playing = g.playing := by
  simp only [coinTimerStep]
  split <;> rfl

@[simp] theorem coinTimerStep_helpHidden (cw : ℚ) (rand : ℕ → ℚ) (dt : ℚ) (g : Game) :
    (coinTimerStep cw rand dt g).helpHidden = g.helpHidden := by
  simp only [coinTimerStep]
  split <;> rfl

@[simp] theorem spikeTimerStep_lives (cw : ℚ) (rand : ℕ → ℚ) (dt : ℚ) (g : Game) :
    (spikeTimerStep cw rand dt g).world.lives = g.world.lives := by
  simp only [spikeTimerStep]
  split <;> rfl

@[simp] theorem spikeTimerStep_score (cw : ℚ) (rand : ℕ → ℚ) (dt : ℚ) (g : Game) :
    (spikeTimerStep cw rand dt g).world.score = g.world.score := by
  simp only [spikeTimerStep]
  split <;> rfl

@[simp] theorem spikeTimerStep_gameOver (cw : ℚ) (rand : ℕ → ℚ) (dt : ℚ) (g : Game) :
    (spikeTimerStep cw rand dt g).gameOver = g.gameOver := by
  simp only [spikeTimerStep]
  split <;> rfl

@[simp] theorem spikeTimerStep_paused (cw : ℚ) (rand : ℕ → ℚ) (dt : ℚ) (g : Game) :
    (spikeTimerStep cw rand dt g).paused = g.paused := by
  simp only [spikeTimerStep]
  split <;> rfl

@[simp] theorem spikeTimerStep_playing (cw : ℚ) (rand : ℕ → ℚ) (dt : ℚ) (g : Game) :
    (spikeTimerStep cw rand dt g).playing = g.playing := by
  simp only [spikeTimerStep]
  split <;> rfl

@[simp] theorem spikeTimerStep_helpHidden (cw : ℚ) (rand : ℕ → ℚ) (dt : ℚ) (g : Game) :
    (spikeTimerStep cw rand dt g).helpHidden = g.helpHidden := by
  simp only [spikeTimerStep]
  split <;> rfl

@[simp] theorem maybeSpawnPlatform_lives (cw : ℚ) (rand : ℕ → ℚ) (g : Game) :
    (maybeSpawnPlatform cw rand g).world.lives = g.world.lives := by
  simp only [maybeSpawnPlatform]
  split
  · rfl
  · split <;> rfl

@[simp] theorem maybeSpawnPlatform_score (cw : ℚ) (rand : ℕ → ℚ) (g : Game) :
    (maybeSpawnPlatform cw rand g).world.score = g.world.score := by
  simp only [maybeSpawnPlatform]
  split
  · rfl
  · split <;> rfl

@[simp] theorem maybeSpawnPlatform_gameOver (cw : ℚ) (rand : ℕ → ℚ) (g : Game) :
    (maybeSpawnPlatform cw rand g).gameOver = g.gameOver := by
  simp only [maybeSpawnPlatform]
  split
  · rfl
  · split <;> rfl

@[simp] theorem maybeSpawnPlatform_paused (cw : ℚ) (rand : ℕ → ℚ) (g : Game) :
    (maybeSpawnPlatform cw rand g).paused = g.paused := by
  simp only [maybeSpawnPlatform]
  split
  · rfl
  · split <;> rfl

@[simp] theorem maybeSpawnPlatform_playing (cw : ℚ) (rand : ℕ → ℚ) (g : Game) :
    (maybeSpawnPlatform cw rand g).playing = g.playing := by
  simp only [maybeSpawnPlatform]
  split
  · rfl
  · split <;> rfl

@[simp] theorem maybeSpawnPlatform_helpHidden (cw : ℚ) (rand : ℕ → ℚ) (g : Game) :
    (maybeSpawnPlatform cw rand g).helpHidden = g.helpHidden := by
  simp only [maybeSpawnPlatform]
  split
  · rfl
  · split <;> rfl

@[simp] theorem scroll_lives (dt : ℚ) (g : Game) :
    (scroll dt g).world.lives = g.world.lives := rfl

@[simp] theorem scroll_score (dt : ℚ) (g : Game) :
    (scroll dt g).world.score = g.world.score := rfl

@[simp] theorem scroll_gameOver (dt : ℚ) (g : Game) :
    (scroll dt g).gameOver = g.gameOver := rfl

@[simp] theorem scroll_paused (dt : ℚ) (g : Game) :
    (scroll dt g).paused = g.paused := rfl

@[simp] theorem scroll_playing (dt : ℚ) (g : Game) :
    (scroll dt g).playing = g.playing := rfl

@[simp] theorem scroll_helpHidden (dt : ℚ) (g : Game) :
    (scroll dt g).helpHidden = g.helpHidden := rfl

@[simp] theorem cull_lives (g : Game) :
    (cull g).world.lives = g.world.lives := rfl

@[simp] theorem cull_score (g : Game) :
    (cull g).world.score = g.world.score := rfl

@[simp] theorem cull_gameOver (g : Game) :
    (cull g).gameOver = g.gameOver := rfl

@[simp] theorem cull_paused (g : Game) :
    (cull g).paused = g.paused := rfl

@[simp] theorem cull_playing (g : Game) :
    (cull g).playing = g.playing := rfl

@[simp] theorem cull_helpHidden (g : Game) :
    (cull g).helpHidden = g.helpHidden := rfl

theorem preCollision_lives (cw : ℚ) (rand : ℕ → ℚ) (dt : ℚ) (k : Keys) (g : Game) :
    (preCollision cw rand dt k g).world.lives = g.world.lives := by
  simp [preCollision]

theorem preCollision_score (cw : ℚ) (rand : ℕ → ℚ) (dt : ℚ) (k : Keys) (g : Game) :
    (preCollision cw rand dt k g).world.score = g.world.score := by
  simp [preCollision]

theorem preCollision_gameOver (cw : ℚ) (rand : ℕ → ℚ) (dt : ℚ) (k : Keys) (g : Game) :
    (preCollision cw rand dt k g).gameOver = g.gameOver := by
  simp [preCollision]

theorem preCollision_paused (cw : ℚ) (rand : ℕ → ℚ) (dt : ℚ) (k : Keys) (g : Game) :
    (preCollision cw rand dt k g).paused = g.paused := by
  simp [preCollision]

theorem preCollision_playing (cw : ℚ) (rand : ℕ → ℚ) (dt : ℚ) (k : Keys) (g : Game) :
    (preCollision cw rand dt k g).playing = g.playing := by
  simp [preCollision]

theorem preCollision_helpHidden (cw : ℚ) (rand : ℕ → ℚ) (dt : ℚ) (k : Keys) (g : Game) :
    (preCollision cw rand dt k g).helpHidden = g.helpHidden := by
  simp [preCollision]

@[simp] theorem moveHero_gameoverCount (cw dt : ℚ) (k : Keys) (g : Game) :
    gameoverCount (moveHero cw dt k g).cues = gameoverCount g.cues := rfl

@[simp] theorem jumpStep_gameoverCount (k : Keys) (g : Game) :
    gameoverCount (jumpStep k g).cues = gameoverCount g.cues := by
  simp only [jumpStep]
  split <;> simp [gameoverCount]

@[simp] theorem physics_gameoverCount (dt : ℚ) (g : Game) :
    gameoverCount (physics dt g).cues = gameoverCount g.cues := rfl

@[simp] theorem coinTimerStep_gameoverCount (cw : ℚ) (rand : ℕ → ℚ) (dt : ℚ) (g : Game) :
    gameoverCount (coinTimerStep cw rand dt g).cues = gameoverCount g.cues := by
  simp only [coinTimerStep]
  split <;> rfl

@[simp] theorem spikeTimerStep_gameoverCount (cw : ℚ) (rand : ℕ → ℚ) (dt : ℚ) (g : Game) :
    gameoverCount (spikeTimerStep cw rand dt g).cues = gameoverCount g.cues := by
  simp only [spikeTimerStep]
  split <;> rfl

@[simp] theorem maybeSpawnPlatform_gameoverCount (cw : ℚ) (rand : ℕ → ℚ) (g : Game) :
    gameoverCount (maybeSpawnPlatform cw rand g).cues = gameoverCount g.cues := by
  simp only [maybeSpawnPlatform]
  split
  · rfl
  · split <;> rfl

@[simp] theorem scroll_gameoverCount (dt : ℚ) (g : Game) :
    gameoverCount (scroll dt g).cues = gameoverCount g.cues := rfl

@[simp] theorem cull_gameoverCount (g : Game) :
    gameoverCount (cull g).cues = gameoverCount g.cues := rfl

theorem preCollision_gameoverCount (cw : ℚ) (rand : ℕ → ℚ) (dt : ℚ) (k : Keys) (g : Game) :
    gameoverCount (preCollision cw rand dt k g).cues = gameoverCount g.cues := by
  simp [preCollision]

/-! ## The spike filter -/

theorem spikeCollision_lives_bounds (hero : Hero) (ss : List Box) :
    ∀ (lives : ℤ) (cues : List Cue), 0 ≤ lives →
      0 ≤ (spikeCollision hero ss lives cues).2.1 ∧
        (spikeCollision hero ss lives cues).2.1 ≤ lives := by
  induction ss with
  | nil => intro lives cues h; simp [spikeCollision, h]
  | cons s ss ih =>
    intro lives cues h
    unfold spikeCollision
    split
    · exact ih lives cues h
    · split
      · have := ih (lives - 1) (cues ++ [Cue.hit]) (by omega)
        exact ⟨this.1, by omega⟩
      · exact ih lives cues h

theorem spikeStep_lives_bounds (g : Game) (h : 0 ≤ g.world.lives) :
    0 ≤ (spikeStep g).world.lives ∧ (spikeStep g).world.lives ≤ g.world.lives :=
  spikeCollision_lives_bounds g.world.hero g.world.spikes g.world.lives g.cues h

theorem animate_world (dt : ℚ) (g : Game) : (animate dt g).world = g.world := by
  simp only [animate]
  split <;> split <;> rfl

theorem coinStep_lives (g : Game) : (coinStep g).world.lives = g.world.lives := rfl

/-! ## The game-over cue -/

theorem coinCollision_gameoverCount (hero : Hero) (cs : List Box) :
    ∀ (score : ℤ) (cues : List Cue),
      gameoverCount (coinCollision hero cs score cues).2.2 = gameoverCount cues := by
  induction cs with
  | nil => intro score cues; rfl
  | cons c cs ih =>
    intro score cues
    unfold coinCollision
    split
    · exact ih score cues
    · rw [ih]; simp [gameoverCount]

theorem spikeCollision_gameoverCount (hero : Hero) (ss : List Box) :
    ∀ (lives : ℤ) (cues : List Cue),
      gameoverCount (spikeCollision hero ss lives cues).2.2 = gameoverCount cues := by
  induction ss with
  | nil => intro lives cues; rfl
  | cons s ss ih =>
    intro lives cues
    unfold spikeCollision
    split
    · exact ih lives cues
    · split
      · rw [ih]; simp [gameoverCount]
      · exact ih lives cues

theorem animate_gameOver (dt : ℚ) (g : Game) : (animate dt g).gameOver = g.gameOver := by
  simp only [animate]
  split <;> split <;> rfl

theorem animate_cues (dt : ℚ) (g : Game) : (animate dt g).cues = g.cues := by
  simp only [animate]
  split <;> split <;> rfl

/-- One run of `update` from a state that is not game over and has lives left: the lives
stay in range, the flag is set exactly when the lives reach 0, and the cue is logged exactly
then. -/
theorem update_gameOver_spec (cw : ℚ) (rand : ℕ → ℚ) (dt : ℚ) (k : Keys) (g : Game)
    (hgo : g.gameOver = false) (hl : 0 < g.world.lives) :
    0 ≤ (update cw rand dt k g).world.lives ∧
      ((update cw rand dt k g).gameOver = true ↔ (update cw rand dt k g).world.lives = 0) ∧
      gameoverCount (update cw rand dt k g).cues =
        gameoverCount g.cues + (if (update cw rand dt k g).world.lives = 0 then 1 else 0) := by
  have h1 : (coinStep (preCollision cw rand dt k g)).world.lives = g.world.lives := by
    rw [coinStep_lives, preCollision_lives]
  have hb := spikeStep_lives_bounds (coinStep (preCollision cw rand dt k g))
    (by rw [h1]; exact le_of_lt hl)
  have hg : (spikeStep (coinStep (preCollision cw rand dt k g))).gameOver = false := by
    show (preCollision cw rand dt k g).gameOver = false
    rw [preCollision_gameOver]; exact hgo
  have hc : gameoverCount (spikeStep (coinStep (preCollision cw rand dt k g))).cues =
      gameoverCount g.cues := by
    show gameoverCount (spikeCollision _ _ _ (coinCollision _ _ _ _).2.2).2.2 = _
    rw [spikeCollision_gameoverCount, coinCollision_gameoverCount, preCollision_gameoverCount]
  simp only [update, animate_world, animate_gameOver, animate_cues]
  generalize spikeStep (coinStep (preCollision cw rand dt k g)) = s at hb hg hc
  unfold gameOverCheck
  by_cases hz : s.world.lives ≤ 0
  · simp [hz, hg, gameoverCount, List.count_append] at hc ⊢
    exact hc
  · have hne : s.world.lives ≠ 0 := by omega
    simp [hz, hg, hne, hc]
    omega

/-! ## Sessions -/

theorem sessionInv_start (rand : ℕ → ℚ) (g : Game) (c : Cmd) (cw : ℚ)
    (hs : c.startsSession g = true) :
    SessionInv (gameoverCount g.cues) (step cw rand g c) ∧
      gameoverCount (step cw rand g c).cues = gameoverCount g.cues := by
  cases c <;> simp [Cmd.startsSession] at hs
  · simp [step, startFromMenu, start, SessionInv]
  · simp [step, restartKey, hs, start, SessionInv]

theorem sessionInv_after_update (base : ℕ) (g u : Game)
    (hcnt : gameoverCount g.cues = base + (if g.gameOver = true then 1 else 0))
    (hgo : g.gameOver = false) (hl : 0 < g.world.lives)
    (hu : 0 ≤ u.world.lives ∧ (u.gameOver = true ↔ u.world.lives = 0) ∧
      gameoverCount u.cues = gameoverCount g.cues + (if u.world.lives = 0 then 1 else 0)) :
    SessionInv base u ∧ gameoverCount u.cues = gameoverCount g.cues +
      (if 0 < g.world.lives ∧ u.world.lives = 0 then 1 else 0) := by
  obtain ⟨u0, uiff, ucnt⟩ := hu
  refine ⟨⟨u0, uiff, ?_⟩, ?_⟩
  · rw [ucnt, hcnt, hgo]
    by_cases hz : u.world.lives = 0
    · simp [hz, uiff.2 hz]
    · have hf : u.gameOver = false := by
        cases hx : u.gameOver
        · rfl
        · exact absurd (uiff.1 hx) hz
      simp [hz, hf]
  · rw [ucnt]
    simp [hl]

theorem step_inSession (cw : ℚ) (rand : ℕ → ℚ) (base : ℕ) (g : Game) (c : Cmd)
    (hc : c.inSession = true) (hi : SessionInv base g) :
    SessionInv base (step cw rand g c) ∧
      gameoverCount (step cw rand g c).cues = gameoverCount g.cues +
        (if 0 < g.world.lives ∧ (step cw rand g c).world.lives = 0 then 1 else 0) := by
  obtain ⟨h0, hiff, hcnt⟩ := hi
  have same : ∀ g1 : Game, g1.world = g.world → g1.gameOver = g.gameOver → g1.cues = g.cues →
      SessionInv base g1 ∧ gameoverCount g1.cues = gameoverCount g.cues +
        (if 0 < g.world.lives ∧ g1.world.lives = 0 then 1 else 0) := by
    intro g1 hw hg hq
    refine ⟨⟨by rw [hw]; exact h0, by rw [hw, hg]; exact hiff, by rw [hq, hg]; exact hcnt⟩, ?_⟩
    rw [hq, hw]
    have : ¬ (0 < g.world.lives ∧ g.world.lives = 0) := by omega
    simp [this]
  cases c <;> simp [Cmd.inSession] at hc
  · rename_i now keys
    simp only [step, loop]
    split
    · rename_i hrun
      simp only [Bool.and_eq_true, Bool.not_eq_true', Bool.not_eq_eq_eq_not, Bool.not_true] at hrun
      have hgo : g.gameOver = false := hrun.1.2
      have hl : 0 < g.world.lives := by
        have hne : g.world.lives ≠ 0 := fun h => by
          have := hiff.2 h
          rw [hgo] at this
          exact Bool.noConfusion this
        omega
      exact sessionInv_after_update base { g with last := now } _ hcnt hgo hl
        (update_gameOver_spec cw rand (min (33 / 1000) ((now - g.last) / 1000)) keys
          { g with last := now } hgo hl)
    · exact same _ rfl rfl rfl
  · apply same
    all_goals (simp only [step, pauseKey]; split <;> rfl)
  · apply same
    all_goals (simp only [step, escapeKey, helpOpen, helpClose]; split <;> split <;> rfl)
  · apply same
    all_goals (simp only [step, helpOpen]; split <;> rfl)
  · apply same
    all_goals (simp only [step, helpClose]; split <;> rfl)

theorem run_inSession (cw : ℚ) (rand : ℕ → ℚ) (base : ℕ) (cmds : List Cmd) :
    ∀ g : Game, (∀ x ∈ cmds, Cmd.inSession x = true) → SessionInv base g →
      SessionInv base (run cw rand g cmds) := by
  induction cmds with
  | nil => intro g _ hi; exact hi
  | cons c cs ih =>
    intro g hin hi
    exact ih (step cw rand g c) (fun x hx => hin x (List.mem_cons_of_mem _ hx))
      (step_inSession cw rand base g c (hin c (List.mem_cons_self _ _)) hi).1

/-! ## The hero during one tick -/

theorem physicsHero_cases (dt : ℚ) (p : Option Box) (h : Hero) :
    ((physicsHero dt p h).onGround = true ∧ (physicsHero dt p h).jumpsLeft = 2 ∧
        (physicsHero dt p h).vy = 0) ∨
      ((physicsHero dt p h).onGround = false ∧ (physicsHero dt p h).jumpsLeft = h.jumpsLeft ∧
        (physicsHero dt p h).vy = h.vy + 900 * dt ∧
        (physicsHero dt p h).y = h.y + (h.vy + 900 * dt) * dt) := by
  simp only [physicsHero]
  generalize platformLanding _ _ _ p = op
  cases groundHit (h.y + (h.vy + 900 * dt) * dt) <;> cases op <;> simp

@[simp] theorem coinTimerStep_hero (cw : ℚ) (rand : ℕ → ℚ) (dt : ℚ) (g : Game) :
    (coinTimerStep cw rand dt g).world.hero = g.world.hero := by
  simp only [coinTimerStep]
  split <;> rfl

@[simp] theorem spikeTimerStep_hero (cw : ℚ) (rand : ℕ → ℚ) (dt : ℚ) (g : Game) :
    (spikeTimerStep cw rand dt g).world.hero = g.world.hero := by
  simp only [spikeTimerStep]
  split <;> rfl

@[simp] theorem maybeSpawnPlatform_hero (cw : ℚ) (rand : ℕ → ℚ) (g : Game) :
    (maybeSpawnPlatform cw rand g).world.hero = g.world.hero := by
  simp only [maybeSpawnPlatform]
  split
  · rfl
  · split <;> rfl

@[simp] theorem gameOverCheck_hero (g : Game) : (gameOverCheck g).world.hero = g.world.hero := by
  simp only [gameOverCheck]
  split <;> rfl

@[simp] theorem jumpStep_platform (k : Keys) (g : Game) :
    (jumpStep k g).world.platform = g.world.platform := by
  simp only [jumpStep]
  split <;> rfl

/-- The hero after `update` is the hero after the move, the jump and the physics block; the
platform tested for landing is the one present when the tick starts. -/
theorem update_hero (cw : ℚ) (rand : ℕ → ℚ) (dt : ℚ) (k : Keys) (g : Game) :
    (update cw rand dt k g).world.hero =
      physicsHero dt g.world.platform (jumpStep k (moveHero cw dt k g)).world.hero := by
  simp only [update, animate_world, gameOverCheck_hero]
  show (preCollision cw rand dt k g).world.hero = _
  simp only [preCollision]
  show (maybeSpawnPlatform cw rand _).world.hero = _
  rw [maybeSpawnPlatform_hero, spikeTimerStep_hero, coinTimerStep_hero]
  show physicsHero dt (jumpStep k (moveHero cw dt k g)).world.platform _ = _
  rw [jumpStep_platform]
  rfl

theorem jumpStep_hero_of_not_taken (k : Keys) (g : Game) (h : jumpTaken k g = false) :
    (jumpStep k g).world.hero = g.world.hero := by
  simp [jumpStep, h]

theorem jumpStep_hero_of_taken (k : Keys) (g : Game) (h : jumpTaken k g = true) :
    (jumpStep k g).world.hero =
      { g.world.hero with vy := -380, onGround := false,
                          jumpsLeft := g.world.hero.jumpsLeft - 1 } := by
  simp [jumpStep, h]

/-! ## The coin filter -/

theorem coinCollision_spec (hero : Hero) (cs : List Box) :
    ∀ (score : ℤ) (cues : List Cue),
      (coinCollision hero cs score cues).1 = cs.filter (fun c => !aabb hero.toBox c) ∧
      (coinCollision hero cs score cues).2.1 =
        score + ((cs.filter (fun c => aabb hero.toBox c)).length : ℤ) ∧
      (coinCollision hero cs score cues).2.2 =
        cues ++ List.replicate (cs.filter (fun c => aabb hero.toBox c)).length Cue.coin := by
  induction cs with
  | nil => intro score cues; simp [coinCollision]
  | cons c cs ih =>
    intro score cues
    unfold coinCollision
    cases hc : aabb hero.toBox c
    · obtain ⟨h1, h2, h3⟩ := ih score cues
      simp [hc, h1, h2, h3]
    · obtain ⟨h1, h2, h3⟩ := ih (score + 1) (cues ++ [Cue.coin])
      simp [hc, h1, h2, h3, List.replicate_succ]
      omega

@[simp] theorem gameOverCheck_coins (g : Game) : (gameOverCheck g).world.coins = g.world.coins := by
  simp only [gameOverCheck]
  split <;> rfl

@[simp] theorem gameOverCheck_score (g : Game) : (gameOverCheck g).world.score = g.world.score := by
  simp only [gameOverCheck]
  split <;> rfl

@[simp] theorem gameOverCheck_spikes (g : Game) :
    (gameOverCheck g).world.spikes = g.world.spikes := by
  simp only [gameOverCheck]
  split <;> rfl

theorem update_coins (cw : ℚ) (rand : ℕ → ℚ) (dt : ℚ) (k : Keys) (g : Game) :
    (update cw rand dt k g).world.coins =
      (coinCollision (preCollision cw rand dt k g).world.hero
        (preCollision cw rand dt k g).world.coins (preCollision cw rand dt k g).world.score
        (preCollision cw rand dt k g).cues).1 := by
  simp only [update, animate_world, gameOverCheck_coins]
  rfl

theorem update_score (cw : ℚ) (rand : ℕ → ℚ) (dt : ℚ) (k : Keys) (g : Game) :
    (update cw rand dt k g).world.score =
      (coinCollision (preCollision cw rand dt k g).world.hero
        (preCollision cw rand dt k g).world.coins (preCollision cw rand dt k g).world.score
        (preCollision cw rand dt k g).cues).2.1 := by
  simp only [update, animate_world, gameOverCheck_score]
  rfl

/-! ## The spike filter, exactly -/

theorem spikeCollision_kept (hero : Hero) (ss : List Box) :
    ∀ (lives : ℤ) (cues : List Cue),
      (spikeCollision hero ss lives cues).1 = ss.filter (fun s => !aabb hero.toBox s) := by
  induction ss with
  | nil => intro lives cues; simp [spikeCollision]
  | cons s ss ih =>
    intro lives cues
    unfold spikeCollision
    cases hc : aabb hero.toBox s
    · simp [hc, ih]
    · by_cases hl : lives > 0 <;> simp [hc, hl, ih]

theorem spikeCollision_lives (hero : Hero) (ss : List Box) :
    ∀ (lives : ℤ) (cues : List Cue), 0 ≤ lives →
      (spikeCollision hero ss lives cues).2.1 =
        max 0 (lives - ((ss.filter (fun s => aabb hero.toBox s)).length : ℤ)) := by
  induction ss with
  | nil => intro lives cues h; simp [spikeCollision, h]
  | cons s ss ih =>
    intro lives cues h
    unfold spikeCollision
    cases hc : aabb hero.toBox s
    · simp [hc, ih lives cues h]
    · by_cases hl : lives > 0
      · simp only [hc, hl, Bool.not_true, Bool.false_eq_true, if_false, if_true]
        rw [ih (lives - 1) (cues ++ [Cue.hit]) (by omega)]
        simp [hc]
        congr 1
        omega
      · have h0 : lives = 0 := by omega
        simp only [hc, hl, Bool.not_true, Bool.false_eq_true, if_false]
        rw [ih lives cues h]
        subst h0
        simp [hc]
        omega

theorem update_spikes (cw : ℚ) (rand : ℕ → ℚ) (dt : ℚ) (k : Keys) (g : Game) :
    (update cw rand dt k g).world.spikes =
      (preCollision cw rand dt k g).world.spikes.filter
        (fun s => !aabb (preCollision cw rand dt k g).world.hero.toBox s) := by
  simp only [update, animate_world, gameOverCheck_spikes]
  exact spikeCollision_kept _ _ _ _

theorem update_lives (cw : ℚ) (rand : ℕ → ℚ) (dt : ℚ) (k : Keys) (g : Game)
    (h : 0 ≤ g.world.lives) :
    (update cw rand dt k g).world.lives =
      max 0 (g.world.lives - (((preCollision cw rand dt k g).world.spikes.filter
        (fun s => aabb (preCollision cw rand dt k g).world.hero.toBox s)).length : ℤ)) := by
  have hs : (spikeStep (coinStep (preCollision cw rand dt k g))).world.lives =
      max 0 (g.world.lives - (((preCollision cw rand dt k g).world.spikes.filter
        (fun s => aabb (preCollision cw rand dt k g).world.hero.toBox s)).length : ℤ)) := by
    have := spikeCollision_lives (preCollision cw rand dt k g).world.hero
      (preCollision cw rand dt k g).world.spikes (preCollision cw rand dt k g).world.lives
      (coinStep (preCollision cw rand dt k g)).cues (by rw [preCollision_lives]; exact h)
    have e : (spikeStep (coinStep (preCollision cw rand dt k g))).world.lives =
        (spikeCollision (preCollision cw rand dt k g).world.hero
          (preCollision cw rand dt k g).world.spikes (preCollision cw rand dt k g).world.lives
          (coinStep (preCollision cw rand dt k g)).cues).2.1 := rfl
    rw [e, this, preCollision_lives]
  simp only [update, animate_world]
  unfold gameOverCheck
  split
  · rename_i hz
    simp only [Bool.and_eq_true, decide_eq_true_eq] at hz
    rw [← hs]
    have hb := spikeStep_lives_bounds (coinStep (preCollision cw rand dt k g))
      (by rw [coinStep_lives, preCollision_lives]; exact h)
    show (0 : ℤ) = _
    omega
  · exact hs

/-! ## Sample runs -/

theorem coinScene_coins : (preCollision 800 halfRand (1 / 60) noKeys coinScene).world.coins =
    [{ x := 50 - 220 * (1 / 60), y := 300, w := 24, h := 24 }] := by
  simp [preCollision, cull, scroll, maybeSpawnPlatform, spikeTimerStep, coinTimerStep,
    physics, jumpStep, jumpTaken, moveHero, coinScene, initGame, noKeys, halfRand]
  norm_num [scrollBox, SCROLL_SPEED]

theorem coinScene_hero : (preCollision 800 halfRand (1 / 60) noKeys coinScene).world.hero =
    { x := 50, y := 300, w := 40, h := 40, vy := 0, onGround := true, jumpsLeft := 2 } := by
  simp [preCollision, cull, scroll, maybeSpawnPlatform, spikeTimerStep, coinTimerStep,
    physics, physicsHero, platformLanding, groundHit, GROUND_Y, jumpStep, jumpTaken, moveHero,
    coinScene, initGame, noKeys, halfRand]
  norm_num

theorem coinScene_overlap :
    aabb (preCollision 800 halfRand (1 / 60) noKeys coinScene).world.hero.toBox
      { x := 50 - 220 * (1 / 60), y := 300, w := 24, h := 24 } = true := by
  rw [coinScene_hero]
  norm_num [aabb, Hero.toBox]

theorem spikeScene_spikes : (preCollision 800 halfRand (1 / 60) noKeys spikeScene).world.spikes =
    [{ x := 50 - 220 * (1 / 60), y := 300, w := 40, h := 40 },
     { x := 60 - 220 * (1 / 60), y := 300, w := 40, h := 40 }] := by
  simp [preCollision, cull, scroll, maybeSpawnPlatform, spikeTimerStep, coinTimerStep,
    physics, jumpStep, jumpTaken, moveHero, spikeScene, initGame, noKeys, halfRand]
  norm_num [scrollBox, SCROLL_SPEED]

theorem spikeScene_hero : (preCollision 800 halfRand (1 / 60) noKeys spikeScene).world.hero =
    { x := 50, y := 300, w := 40, h := 40, vy := 0, onGround := true, jumpsLeft := 2 } := by
  simp [preCollision, cull, scroll, maybeSpawnPlatform, spikeTimerStep, coinTimerStep,
    physics, physicsHero, platformLanding, groundHit, GROUND_Y, jumpStep, jumpTaken, moveHero,
    spikeScene, initGame, noKeys, halfRand]
  norm_num

/-! ## Coin placement -/

theorem lerp_bounds (lo hi r : ℚ) (h0 : 0 ≤ r) (h1 : r < 1) (h : lo ≤ hi) :
    lo ≤ lo + r * (hi - lo) ∧ lo + r * (hi - lo) ≤ hi := by
  have hd : 0 ≤ hi - lo := by linarith
  have hm : 0 ≤ r * (hi - lo) := mul_nonneg h0 hd
  have hm2 : r * (hi - lo) ≤ 1 * (hi - lo) := mul_le_mul_of_nonneg_right (le_of_lt h1) hd
  constructor <;> linarith

theorem groundCoinY_bounds (rand : ℕ → ℚ) (pos : ℕ) (hr : ∀ n, 0 ≤ rand n ∧ rand n < 1) :
    GROUND_Y - 2 * MAX_JUMP_HEIGHT ≤ (groundCoinY rand pos).1 ∧
      (groundCoinY rand pos).1 ≤ GROUND_Y := by
  have := lerp_bounds (GROUND_Y - MAX_JUMP_HEIGHT * 2) GROUND_Y (rand pos) (hr pos).1 (hr pos).2
    (by norm_num [GROUND_Y, MAX_JUMP_HEIGHT])
  simp only [groundCoinY]
  constructor
  · linarith [this.1]
  · exact this.2

/-- For a platform in the spawn range both candidate ranges exist, so the placement is a coin
flip between the range above the band and the range below it. -/
theorem platformCoinY_in_range (rand : ℕ → ℚ) (pos : ℕ) (p : Box)
    (h1 : PLATFORM_MIN_Y ≤ p.y) (h2 : p.y ≤ PLATFORM_MAX_Y) :
    platformCoinY rand pos p =
      if rand pos < 1 / 2 then
        (p.y - MAX_JUMP_HEIGHT * 2 + rand (pos + 1) * (p.y - 10 - (p.y - MAX_JUMP_HEIGHT * 2)),
          pos + 2)
      else
        (p.y + HERO_FRAME_H + 10 + rand (pos + 1) * (GROUND_Y - (p.y + HERO_FRAME_H + 10)),
          pos + 2) := by
  simp only [PLATFORM_MIN_Y, PLATFORM_MAX_Y, GROUND_Y] at h1 h2
  have e1 : max 0 (p.y - MAX_JUMP_HEIGHT * 2) = p.y - MAX_JUMP_HEIGHT * 2 :=
    max_eq_right (by norm_num [MAX_JUMP_HEIGHT]; linarith)
  have e2 : max (p.y - MAX_JUMP_HEIGHT * 2) (p.y - 10) = p.y - 10 :=
    max_eq_right (by unfold MAX_JUMP_HEIGHT; linarith)
  have e3 : min GROUND_Y (p.y + HERO_FRAME_H + 10) = p.y + HERO_FRAME_H + 10 :=
    min_eq_right (by norm_num [GROUND_Y, HERO_FRAME_H]; linarith)
  have a : p.y - 10 > p.y - MAX_JUMP_HEIGHT * 2 := by norm_num [MAX_JUMP_HEIGHT]
  have b : p.y + HERO_FRAME_H + 10 < GROUND_Y := by norm_num [GROUND_Y, HERO_FRAME_H]; linarith
  simp only [platformCoinY, e1, e2, e3, a, b, decide_True, Bool.and_self, if_true]

theorem platformCoinY_bounds (rand : ℕ → ℚ) (pos : ℕ) (p : Box)
    (hr : ∀ n, 0 ≤ rand n ∧ rand n < 1)
    (h1 : PLATFORM_MIN_Y ≤ p.y) (h2 : p.y ≤ PLATFORM_MAX_Y) :
    max 0 (p.y - 2 * MAX_JUMP_HEIGHT) ≤ (platformCoinY rand pos p).1 ∧
      (platformCoinY rand pos p).1 ≤ GROUND_Y := by
  rw [platformCoinY_in_range rand pos p h1 h2]
  simp only [PLATFORM_MIN_Y, PLATFORM_MAX_Y, GROUND_Y] at h1 h2
  have e1 : max 0 (p.y - 2 * MAX_JUMP_HEIGHT) = p.y - MAX_JUMP_HEIGHT * 2 := by
    rw [max_eq_right (by norm_num [MAX_JUMP_HEIGHT]; linarith)]; ring
  rw [e1]
  have ha := lerp_bounds (p.y - MAX_JUMP_HEIGHT * 2) (p.y - 10) (rand (pos + 1))
    (hr _).1 (hr _).2 (by unfold MAX_JUMP_HEIGHT; linarith)
  have hb := lerp_bounds (p.y + HERO_FRAME_H + 10) GROUND_Y (rand (pos + 1))
    (hr _).1 (hr _).2 (by norm_num [GROUND_Y, HERO_FRAME_H]; linarith)
  split
  · refine ⟨ha.1, ?_⟩
    have := ha.2
    simp only [GROUND_Y]
    linarith
  · refine ⟨?_, hb.2⟩
    have := hb.1
    simp only [HERO_FRAME_H, MAX_JUMP_HEIGHT] at this ⊢
    linarith

/-! ## Ticks spent in the air -/

theorem platformLanding_of_rising (hero : Hero) (v b : ℚ) (p : Option Box) (hv : v < 0) :
    platformLanding hero v b p = none := by
  cases p with
  | none => rfl
  | some q =>
    have : ¬ (v ≥ 0) := not_le.mpr hv
    simp [platformLanding, platformHit, this]

theorem physicsHero_air (dt : ℚ) (p : Option Box) (h : Hero) (hv : h.vy + 900 * dt < 0)
    (hy : h.y + (h.vy + 900 * dt) * dt < GROUND_Y) :
    (physicsHero dt p h).onGround = false := by
  have hg : groundHit (h.y + (h.vy + 900 * dt) * dt) = false := by
    simp [groundHit, hy]
  simp only [physicsHero, hg, platformLanding_of_rising _ _ _ p hv]
  simp

theorem update_spaceWasDown (cw : ℚ) (rand : ℕ → ℚ) (dt : ℚ) (k : Keys) (g : Game) :
    (update cw rand dt k g).spaceWasDown = k.space := by
  have e1 : ∀ s : Game, (animate dt s).spaceWasDown = s.spaceWasDown := by
    intro s; simp only [animate]; split <;> split <;> rfl
  have e2 : ∀ s : Game, (gameOverCheck s).spaceWasDown = s.spaceWasDown := by
    intro s; simp only [gameOverCheck]; split <;> rfl
  have e3 : ∀ s : Game, (maybeSpawnPlatform cw rand s).spaceWasDown = s.spaceWasDown := by
    intro s; simp only [maybeSpawnPlatform]; split
    · rfl
    · split <;> rfl
  have e4 : ∀ s : Game, (spikeTimerStep cw rand dt s).spaceWasDown = s.spaceWasDown := by
    intro s; simp only [spikeTimerStep]; split <;> rfl
  have e5 : ∀ s : Game, (coinTimerStep cw rand dt s).spaceWasDown = s.spaceWasDown := by
    intro s; simp only [coinTimerStep]; split <;> rfl
  simp only [update, e1, e2]
  show (maybeSpawnPlatform cw rand _).spaceWasDown = _
  rw [e3, e4, e5]
  show (jumpStep k (moveHero cw dt k g)).spaceWasDown = _
  simp only [jumpStep]

theorem jumpTaken_moveHero (cw dt : ℚ) (k : Keys) (g : Game) :
    jumpTaken k (moveHero cw dt k g) =
      (k.space && !g.spaceWasDown && decide (g.world.hero.jumpsLeft > 0)) := rfl

/-- A tick whose velocity after the jump block and gravity is still upward, started at or
above ground height, ends in the air. -/
theorem tick_air (cw : ℚ) (rand : ℕ → ℚ) (dt : ℚ) (k : Keys) (g : Game) (v : ℚ) (j : ℤ)
    (hdt : 0 < dt) (hy : g.world.hero.y ≤ GROUND_Y)
    (hvy : (jumpStep k (moveHero cw dt k g)).world.hero.vy = v)
    (hj : (jumpStep k (moveHero cw dt k g)).world.hero.jumpsLeft = j)
    (hv : v + 900 * dt < 0) :
    (update cw rand dt k g).world.hero.onGround = false ∧
      (update cw rand dt k g).world.hero.vy = v + 900 * dt ∧
      (update cw rand dt k g).world.hero.jumpsLeft = j ∧
      (update cw rand dt k g).world.hero.y ≤ GROUND_Y ∧
      (update cw rand dt k g).spaceWasDown = k.space := by
  have hy0 : (jumpStep k (moveHero cw dt k g)).world.hero.y = g.world.hero.y := by
    simp only [jumpStep]
    split <;> rfl
  have hlt : g.world.hero.y + (v + 900 * dt) * dt < GROUND_Y := by
    have : (v + 900 * dt) * dt < 0 := mul_neg_of_neg_of_pos hv hdt
    linarith
  have hair := physicsHero_air dt g.world.platform (jumpStep k (moveHero cw dt k g)).world.hero
    (by rw [hvy]; exact hv) (by rw [hvy, hy0]; exact hlt)
  have hc := physicsHero_cases dt g.world.platform (jumpStep k (moveHero cw dt k g)).world.hero
  rw [← update_hero cw rand] at hc hair
  rcases hc with ⟨h1, _, _⟩ | ⟨h1, h2, h3, h4⟩
  · rw [hair] at h1; exact Bool.noConfusion h1
  · refine ⟨h1, by rw [h3, hvy], by rw [h2, hj], ?_, update_spaceWasDown cw rand dt k g⟩
    rw [h4, hvy, hy0]
    exact le_of_lt hlt

theorem jumpStep_vy_jump (k : Keys) (g : Game) (h : jumpTaken k g = true) :
    (jumpStep k g).world.hero.vy = -380 ∧
      (jumpStep k g).world.hero.jumpsLeft = g.world.hero.jumpsLeft - 1 := by
  rw [jumpStep_hero_of_taken k g h]
  exact ⟨rfl, rfl⟩

theorem jumpStep_vy_keep (k : Keys) (g : Game) (h : jumpTaken k g = false) :
    (jumpStep k g).world.hero.vy = g.world.hero.vy ∧
      (jumpStep k g).world.hero.jumpsLeft = g.world.hero.jumpsLeft := by
  rw [jumpStep_hero_of_not_taken k g h]
  exact ⟨rfl, rfl⟩

/-- A tick with a rising edge of the jump key and a jump left. -/
theorem tick_jump (cw : ℚ) (rand : ℕ → ℚ) (dt : ℚ) (k : Keys) (g : Game)
    (hdt : 0 < dt) (hmax : dt ≤ 33 / 1000) (hk : k.space = true)
    (hw : g.spaceWasDown = false) (hj : 0 < g.world.hero.jumpsLeft)
    (hy : g.world.hero.y ≤ GROUND_Y) :
    (update cw rand dt k g).world.hero.onGround = false ∧
      (update cw rand dt k g).world.hero.vy = -380 + 900 * dt ∧
      (update cw rand dt k g).world.hero.jumpsLeft = g.world.hero.jumpsLeft - 1 ∧
      (update cw rand dt k g).world.hero.y ≤ GROUND_Y ∧
      (update cw rand dt k g).spaceWasDown = k.space := by
  have ht : jumpTaken k (moveHero cw dt k g) = true := by
    rw [jumpTaken_moveHero]
    simp [hk, hw, hj]
  obtain ⟨e1, e2⟩ := jumpStep_vy_jump k (moveHero cw dt k g) ht
  exact tick_air cw rand dt k g (-380) (g.world.hero.jumpsLeft - 1) hdt hy e1 e2 (by linarith)

/-- A tick without a jump, with the hero rising fast enough to stay in the air. -/
theorem tick_coast (cw : ℚ) (rand : ℕ → ℚ) (dt : ℚ) (k : Keys) (g : Game)
    (hdt : 0 < dt) (ht : jumpTaken k (moveHero cw dt k g) = false)
    (hv : g.world.hero.vy + 900 * dt < 0) (hy : g.world.hero.y ≤ GROUND_Y) :
    (update cw rand dt k g).world.hero.onGround = false ∧
      (update cw rand dt k g).world.hero.vy = g.world.hero.vy + 900 * dt ∧
      (update cw rand dt k g).world.hero.jumpsLeft = g.world.hero.jumpsLeft ∧
      (update cw rand dt k g).world.hero.y ≤ GROUND_Y ∧
      (update cw rand dt k g).spaceWasDown = k.space := by
  obtain ⟨e1, e2⟩ := jumpStep_vy_keep k (moveHero cw dt k g) ht
  exact tick_air cw rand dt k g g.world.hero.vy g.world.hero.jumpsLeft hdt hy e1 e2 hv

/-! ## The platform during one tick -/

@[simp] theorem coinTimerStep_platform (cw : ℚ) (rand : ℕ → ℚ) (dt : ℚ) (g : Game) :
    (coinTimerStep cw rand dt g).world.platform = g.world.platform := by
  simp only [coinTimerStep]
  split <;> rfl

@[simp] theorem spikeTimerStep_platform (cw : ℚ) (rand : ℕ → ℚ) (dt : ℚ) (g : Game) :
    (spikeTimerStep cw rand dt g).world.platform = g.world.platform := by
  simp only [spikeTimerStep]
  split <;> rfl

@[simp] theorem gameOverCheck_platform (g : Game) :
    (gameOverCheck g).world.platform = g.world.platform := by
  simp only [gameOverCheck]
  split <;> rfl

/-- The platform when `maybeSpawnPlatform` runs is the platform at the start of the tick. -/
theorem beforeSpawn_platform (cw : ℚ) (rand : ℕ → ℚ) (dt : ℚ) (k : Keys) (g : Game) :
    (spikeTimerStep cw rand dt (coinTimerStep cw rand dt
      (physics dt (jumpStep k (moveHero cw dt k g))))).world.platform = g.world.platform := by
  rw [spikeTimerStep_platform, coinTimerStep_platform]
  show (jumpStep k (moveHero cw dt k g)).world.platform = _
  rw [jumpStep_platform]
  rfl

theorem update_platform (cw : ℚ) (rand : ℕ → ℚ) (dt : ℚ) (k : Keys) (g : Game) :
    (update cw rand dt k g).world.platform =
      scrollPlatform dt (maybeSpawnPlatform cw rand (spikeTimerStep cw rand dt
        (coinTimerStep cw rand dt (physics dt (jumpStep k (moveHero cw dt k g)))))).world.platform := by
  simp only [update, animate_world, gameOverCheck_platform]
  rfl

/-- With no platform and no draw below 0.004, a tick ends with no platform. -/
theorem update_platform_of_none (cw : ℚ) (rand : ℕ → ℚ) (dt : ℚ) (k : Keys) (g : Game)
    (hp : g.world.platform = none) (hr : ∀ n, 4 / 1000 ≤ rand n) :
    (update cw rand dt k g).world.platform = none := by
  rw [update_platform]
  have h := beforeSpawn_platform cw rand dt k g
  rw [hp] at h
  generalize spikeTimerStep cw rand dt (coinTimerStep cw rand dt
    (physics dt (jumpStep k (moveHero cw dt k g)))) = s at h ⊢
  have hn : ¬ rand s.rngPos < 4 / 1000 := not_lt.mpr (hr _)
  simp only [maybeSpawnPlatform, h, hn, if_false]
  rfl

/-! ## Landing -/

theorem physicsHero_ground (dt : ℚ) (p : Option Box) (h : Hero)
    (hg : groundHit (h.y + (h.vy + 900 * dt) * dt) = true)
    (hp : platformLanding { h with vy := 0, y := GROUND_Y } (h.vy + 900 * dt)
      (h.y + (h.vy + 900 * dt) * dt + h.h) p = none) :
    physicsHero dt p h =
      { h with y := GROUND_Y, vy := 0, onGround := true, jumpsLeft := 2 } := by
  simp only [physicsHero, hg, if_true, hp]
  rfl

theorem physicsHero_platform (dt : ℚ) (op : Option Box) (p : Box) (h : Hero)
    (hg : groundHit (h.y + (h.vy + 900 * dt) * dt) = false)
    (hp : platformLanding { h with vy := h.vy + 900 * dt, y := h.y + (h.vy + 900 * dt) * dt }
      (h.vy + 900 * dt) (h.y + (h.vy + 900 * dt) * dt + h.h) op = some p) :
    physicsHero dt op h =
      { h with y := p.y, vy := 0, onGround := true, jumpsLeft := 2 } := by
  simp only [physicsHero, hg, Bool.false_eq_true, if_false]
  rw [hp]
  simp

theorem ticks_append (cw : ℚ) (rand : ℕ → ℚ) (g : Game) (ts : List (ℚ × Keys))
    (t : ℚ × Keys) :
    ticks cw rand g (ts ++ [t]) = update cw rand t.1 t.2 (ticks cw rand g ts) := by
  simp [ticks, List.foldl_append]

/-- A tick without a jump, started at rest on the ground with no platform, ends at rest on
the ground. -/
theorem tick_ground_rest (cw : ℚ) (rand : ℕ → ℚ) (dt : ℚ) (k : Keys) (g : Game)
    (hk : jumpTaken k (moveHero cw dt k g) = false) (hp : g.world.platform = none)
    (hy : g.world.hero.y = GROUND_Y) (hv : g.world.hero.vy = 0) :
    (update cw rand dt k g).world.hero.y = GROUND_Y ∧
      (update cw rand dt k g).world.hero.vy = 0 ∧
      (update cw rand dt k g).world.hero.onGround = true ∧
      (update cw rand dt k g).world.hero.jumpsLeft = 2 := by
  rw [update_hero, jumpStep_hero_of_not_taken k _ hk, hp]
  have hy1 : (moveHero cw dt k g).world.hero.y = GROUND_Y := hy
  have hv1 : (moveHero cw dt k g).world.hero.vy = 0 := hv
  have hg : groundHit ((moveHero cw dt k g).world.hero.y +
      ((moveHero cw dt k g).world.hero.vy + 900 * dt) * dt) = true := by
    rw [hy1, hv1]
    have : 0 ≤ dt * dt := mul_self_nonneg dt
    simp only [groundHit, decide_eq_true_eq, ge_iff_le]
    linarith
  rw [physicsHero_ground dt none _ hg rfl]
  exact ⟨rfl, rfl, rfl, rfl⟩

/-! ## The platform over many ticks -/

theorem totalTime_nonneg (ts : List (ℚ × Keys)) (h : ∀ t ∈ ts, 0 ≤ t.1) :
    0 ≤ totalTime ts := by
  unfold totalTime
  apply List.sum_nonneg
  intro x hx
  obtain ⟨t, ht, rfl⟩ := List.mem_map.mp hx
  exact h t ht

theorem sessionOf_playing_iff (g : Game) :
    sessionOf g = some Session.playing ↔
      (g.playing = true ∧ g.paused = false ∧ g.gameOver = false) := by
  unfold sessionOf
  cases g.playing <;> cases g.paused <;> cases g.gameOver <;> simp

theorem sessionOf_gameOver_iff (g : Game) :
    sessionOf g = some Session.gameOver ↔
      (g.playing = true ∧ g.paused = true ∧ g.gameOver = true) := by
  unfold sessionOf
  cases g.playing <;> cases g.paused <;> cases g.gameOver <;> simp

theorem loop_idle (cw : ℚ) (rand : ℕ → ℚ) (now : ℚ) (k : Keys) (g : Game)
    (h : sessionOf g ≠ some Session.playing) :
    loop cw rand now k g = { g with last := now } := by
  have hc : (!g.paused && !g.gameOver && g.playing) = false := by
    rw [Ne, sessionOf_playing_iff] at h
    cases hp : g.playing <;> cases hq : g.paused <;> cases hg : g.gameOver <;> simp_all
  simp only [loop, hc, Bool.false_eq_true, if_false]

theorem loop_playing (cw : ℚ) (rand : ℕ → ℚ) (now : ℚ) (k : Keys) (g : Game)
    (h : sessionOf g = some Session.playing) :
    loop cw rand now k g =
      update cw rand (min (33 / 1000) ((now - g.last) / 1000)) k { g with last := now } := by
  obtain ⟨h1, h2, h3⟩ := (sessionOf_playing_iff g).mp h
  simp only [loop, h1, h2, h3, Bool.not_false, Bool.and_self, if_true]

theorem animate_flags (dt : ℚ) (g : Game) :
    (animate dt g).playing = g.playing ∧ (animate dt g).paused = g.paused := by
  simp only [animate]
  split <;> split <;> exact ⟨rfl, rfl⟩

/-- What `update` does to the flags: `playing` is kept; `paused` and `gameOver` are kept, or
both set in the tick that starts with `gameOver` clear and ends with no life. -/
theorem update_flags (cw : ℚ) (rand : ℕ → ℚ) (dt : ℚ) (k : Keys) (g : Game) :
    (update cw rand dt k g).playing = g.playing ∧
      (((update cw rand dt k g).paused = g.paused ∧
          (update cw rand dt k g).gameOver = g.gameOver) ∨
        ((update cw rand dt k g).paused = true ∧ (update cw rand dt k g).gameOver = true ∧
          g.gameOver = false ∧ (update cw rand dt k g).world.lives = 0)) := by
  have h1 : (spikeStep (coinStep (preCollision cw rand dt k g))).playing = g.playing :=
    preCollision_playing cw rand dt k g
  have h2 : (spikeStep (coinStep (preCollision cw rand dt k g))).paused = g.paused :=
    preCollision_paused cw rand dt k g
  have h3 : (spikeStep (coinStep (preCollision cw rand dt k g))).gameOver = g.gameOver :=
    preCollision_gameOver cw rand dt k g
  simp only [update, animate_world, animate_gameOver, (animate_flags dt _).1,
    (animate_flags dt _).2]
  generalize spikeStep (coinStep (preCollision cw rand dt k g)) = s at h1 h2 h3
  unfold gameOverCheck
  split
  · rename_i hc
    simp only [Bool.and_eq_true, decide_eq_true_eq, Bool.not_eq_true'] at hc
    refine ⟨h1, Or.inr ⟨rfl, rfl, ?_, rfl⟩⟩
    rw [← h3]; exact hc.2
  · exact ⟨h1, Or.inl ⟨h2, h3⟩⟩

theorem step_gameOver_stays (cw : ℚ) (rand : ℕ → ℚ) (g : Game) (c : Cmd)
    (hg : sessionOf g = some Session.gameOver) (hc : c.inSession = true) :
    sessionOf (step cw rand g c) = some Session.gameOver ∧ (step cw rand g c).world = g.world := by
  have hne : sessionOf g ≠ some Session.playing := by rw [hg]; decide
  obtain ⟨h1, h2, h3⟩ := (sessionOf_gameOver_iff g).mp hg
  cases c <;> simp [Cmd.inSession] at hc
  · rename_i now keys
    have e : step cw rand g (Cmd.frame now keys) = { g with last := now } :=
      loop_idle cw rand now keys g hne
    rw [e]
    exact ⟨hg, rfl⟩
  all_goals
    obtain ⟨w, l, sw, pa, go, pl, ct, ci, st, si, hf, hft, cf, cft, hh, cu, rp⟩ := g
    simp only at h1 h2 h3
    subst h1 h2 h3
    first
      | exact ⟨rfl, rfl⟩
      | (cases hh <;> exact ⟨rfl, rfl⟩)

theorem run_gameOver_stays (cw : ℚ) (rand : ℕ → ℚ) (cmds : List Cmd) :
    ∀ g : Game, sessionOf g = some Session.gameOver → (∀ x ∈ cmds, Cmd.inSession x = true) →
      sessionOf (run cw rand g cmds) = some Session.gameOver ∧
        (run cw rand g cmds).world = g.world := by
  induction cmds with
  | nil => intro g hg _; exact ⟨hg, rfl⟩
  | cons c cs ih =>
    intro g hg hin
    obtain ⟨s1, s2⟩ := step_gameOver_stays cw rand g c hg (hin c (List.mem_cons_self _ _))
    obtain ⟨r1, r2⟩ := ih (step cw rand g c) s1 (fun x hx => hin x (List.mem_cons_of_mem _ hx))
    exact ⟨r1, r2.trans s2⟩

theorem step_gameOver_flag (cw : ℚ) (rand : ℕ → ℚ) (g : Game) (c : Cmd)
    (h0 : g.gameOver = false) (h1 : (step cw rand g c).gameOver = true) :
    ∃ (now : ℚ) (keys : Keys), c = Cmd.frame now keys ∧ sessionOf g = some Session.playing ∧
      (step cw rand g c).world.lives = 0 := by
  cases c with
  | frame now keys =>
    refine ⟨now, keys, rfl, ?_⟩
    by_cases hp : sessionOf g = some Session.playing
    · refine ⟨hp, ?_⟩
      have e : step cw rand g (Cmd.frame now keys) =
          update cw rand (min (33 / 1000) ((now - g.last) / 1000)) keys { g with last := now } :=
        loop_playing cw rand now keys g hp
      rw [e] at h1 ⊢
      rcases (update_flags cw rand (min (33 / 1000) ((now - g.last) / 1000)) keys
        { g with last := now }).2 with ⟨_, hk⟩ | ⟨_, _, _, hl⟩
      · rw [hk] at h1
        rw [show ({ g with last := now } : Game).gameOver = g.gameOver from rfl, h0] at h1
        exact Bool.noConfusion h1
      · exact hl
    · have e : step cw rand g (Cmd.frame now keys) = { g with last := now } :=
        loop_idle cw rand now keys g hp
      rw [e] at h1
      rw [show ({ g with last := now } : Game).gameOver = g.gameOver from rfl, h0] at h1
      exact Bool.noConfusion h1
  | startClick now => exact Bool.noConfusion h1
  | returnMenuClick => exact Bool.noConfusion h1
  | restartKey now =>
    exfalso
    simp only [step, restartKey] at h1
    split at h1
    · exact Bool.noConfusion h1
    · rw [h0] at h1; exact Bool.noConfusion h1
  | pauseKey =>
    exfalso
    simp only [step, pauseKey] at h1
    split at h1 <;> (simp only [h0] at h1; exact Bool.noConfusion h1)
  | escapeKey =>
    exfalso
    simp only [step, escapeKey, helpOpen, helpClose] at h1
    split at h1 <;> split at h1 <;> (simp only [h0] at h1; exact Bool.noConfusion h1)
  | helpOpen =>
    exfalso
    simp only [step, helpOpen] at h1
    split at h1 <;> (simp only [h0] at h1; exact Bool.noConfusion h1)
  | helpClose =>
    exfalso
    simp only [step, helpClose] at h1
    split at h1 <;> (simp only [h0] at h1; exact Bool.noConfusion h1)

/-! ## Reset -/

theorem randRange_bounds (lo hi r : ℚ) (h0 : 0 ≤ r) (h1 : r < 1) (h : lo < hi) :
    lo ≤ randRange lo hi r ∧ randRange lo hi r < hi := by
  have hd : 0 < hi - lo := by linarith
  have hm : 0 ≤ r * (hi - lo) := mul_nonneg h0 (le_of_lt hd)
  have hm2 : r * (hi - lo) < 1 * (hi - lo) := mul_lt_mul_of_pos_right h1 hd
  unfold randRange
  constructor <;> linarith

theorem start_isReset (rand : ℕ → ℚ) (now : ℚ) (g : Game)
    (hr : ∀ n, 0 ≤ rand n ∧ rand n < 1) : IsReset (start rand now g) := by
  have c := randRange_bounds (25 / 100) (6 / 10) (rand g.rngPos) (hr _).1 (hr _).2
    (by norm_num)
  have d := randRange_bounds (9 / 10) (17 / 10) (rand (g.rngPos + 1)) (hr _).1 (hr _).2
    (by norm_num)
  exact ⟨rfl, rfl, rfl, rfl, rfl, rfl, rfl, rfl, rfl, rfl, rfl, rfl, rfl, rfl, rfl, rfl, rfl,
    c, d⟩

/-! ## The four flag patterns -/

theorem step_sessionOf_isSome (cw : ℚ) (rand : ℕ → ℚ) (g : Game) (c : Cmd)
    (h : (sessionOf g).isSome = true) : (sessionOf (step cw rand g c)).isSome = true := by
  cases c with
  | frame now keys =>
    by_cases hp : sessionOf g = some Session.playing
    · have e : step cw rand g (Cmd.frame now keys) =
          update cw rand (min (33 / 1000) ((now - g.last) / 1000)) keys { g with last := now } :=
        loop_playing cw rand now keys g hp
      rw [e]
      obtain ⟨p1, p2, p3⟩ := (sessionOf_playing_iff g).mp hp
      obtain ⟨u1, u2⟩ := update_flags cw rand (min (33 / 1000) ((now - g.last) / 1000)) keys
        { g with last := now }
      have q1 : (update cw rand (min (33 / 1000) ((now - g.last) / 1000)) keys
          { g with last := now }).playing = true := by rw [u1]; exact p1
      rcases u2 with ⟨a, b⟩ | ⟨a, b, _, _⟩
      · have q2 : (update cw rand (min (33 / 1000) ((now - g.last) / 1000)) keys
            { g with last := now }).paused = false := by rw [a]; exact p2
        have q3 : (update cw rand (min (33 / 1000) ((now - g.last) / 1000)) keys
            { g with last := now }).gameOver = false := by rw [b]; exact p3
        rw [(sessionOf_playing_iff _).mpr ⟨q1, q2, q3⟩]
        rfl
      · rw [(sessionOf_gameOver_iff _).mpr ⟨q1, a, b⟩]
        rfl
    · have e : step cw rand g (Cmd.frame now keys) = { g with last := now } :=
        loop_idle cw rand now keys g hp
      rw [e]
      exact h
  | startClick now => rfl
  | returnMenuClick => rfl
  | restartKey now =>
    obtain ⟨w, l, sw, pa, go, pl, ct, ci, st, si, hf, hft, cf, cft, hh, cu, rp⟩ := g
    cases pl <;> cases pa <;> cases go <;> first | rfl | exact h
  | pauseKey =>
    obtain ⟨w, l, sw, pa, go, pl, ct, ci, st, si, hf, hft, cf, cft, hh, cu, rp⟩ := g
    cases pl <;> cases pa <;> cases go <;> first | rfl | exact h
  | escapeKey =>
    obtain ⟨w, l, sw, pa, go, pl, ct, ci, st, si, hf, hft, cf, cft, hh, cu, rp⟩ := g
    cases pl <;> cases pa <;> cases go <;> cases hh <;> first | rfl | exact h
  | helpOpen =>
    obtain ⟨w, l, sw, pa, go, pl, ct, ci, st, si, hf, hft, cf, cft, hh, cu, rp⟩ := g
    cases pl <;> cases pa <;> cases go <;> first | rfl | exact h
  | helpClose =>
    obtain ⟨w, l, sw, pa, go, pl, ct, ci, st, si, hf, hft, cf, cft, hh, cu, rp⟩ := g
    cases pl <;> cases pa <;> cases go <;> first | rfl | exact h

theorem run_sessionOf_isSome (cw : ℚ) (rand : ℕ → ℚ) (cmds : List Cmd) :
    ∀ g : Game, (sessionOf g).isSome = true →
      (sessionOf (run cw rand g cmds)).isSome = true := by
  induction cmds with
  | nil => intro g h; exact h
  | cons c cs ih => intro g h; exact ih _ (step_sessionOf_isSome cw rand g c h)

theorem sessionOf_isSome_flags (g : Game) (h : (sessionOf g).isSome = true) :
    (g.gameOver = true → g.paused = true ∧ g.playing = true) ∧
      (g.playing = false → g.paused = true ∧ g.gameOver = false) := by
  unfold sessionOf at h
  cases hp : g.playing <;> cases hq : g.paused <;> cases hg : g.gameOver <;>
    simp [hp, hq, hg] at h ⊢

/-! ## Ground against platform -/

theorem platformHit_of_low (hero : Hero) (v b : ℚ) (p : Box) (hb : p.y + hero.h + 10 < b) :
    platformHit hero v b p = false := by
  have : ¬ (b ≤ p.y + hero.h + 10) := not_le.mpr hb
  simp [platformHit, this]

theorem platformHit_of_band (hero : Hero) (v b : ℚ) (p : Box) (hv : 0 ≤ v)
    (h1 : hero.x + hero.w > p.x) (h2 : hero.x < p.x + p.w)
    (h3 : p.y + hero.h - 10 ≤ b) (h4 : b ≤ p.y + hero.h + 10) :
    platformHit hero v b p = true := by
  simp [platformHit, hv, h1, h2, h3, h4]

/-! ## The animation clocks -/

/-- C8. The overlap test is symmetric: `aabb a b = aabb b a` for all boxes. -/
theorem aabb_symmetric (a b : Box) : aabb a b = aabb b a := by
  simp only [aabb]
  cases decide (a.x + a.w < b.x) <;> cases decide (b.x + b.w < a.x) <;>
    cases decide (a.y + a.h < b.y) <;> cases decide (b.y + b.h < a.y) <;> rfl

/-- C1. For every state with `lives ≥ 0` and every tick input (canvas width, random stream,
`dt`, keys), the lives after `update` lie between 0 and the lives before. -/
theorem update_lives_bounds (cw : ℚ) (rand : ℕ → ℚ) (dt : ℚ) (k : Keys) (g : Game)
    (h : 0 ≤ g.world.lives) :
    0 ≤ (update cw rand dt k g).world.lives ∧
      (update cw rand dt k g).world.lives ≤ g.world.lives := by
  have h1 : (coinStep (preCollision cw rand dt k g)).world.lives = g.world.lives := by
    rw [coinStep_lives, preCollision_lives]
  have hb := spikeStep_lives_bounds (coinStep (preCollision cw rand dt k g)) (by rw [h1]; exact h)
  rw [h1] at hb
  simp only [update, animate_world]
  unfold gameOverCheck
  split
  · exact ⟨le_refl _, h⟩
  · exact hb

/-- C1 at a concrete input: three lives, one frame of a sixtieth of a second. -/
theorem update_lives_bounds_witness :
    0 ≤ (initGame 0 true).world.lives ∧
      0 ≤ (update 800 halfRand (1 / 60) spaceKey (initGame 0 true)).world.lives ∧
      (update 800 halfRand (1 / 60) spaceKey (initGame 0 true)).world.lives ≤
        (initGame 0 true).world.lives :=
  ⟨by decide, update_lives_bounds 800 halfRand (1 / 60) spaceKey (initGame 0 true) (by decide)⟩

/-- C2. In a session opened from any state `g` by the start button or by the restart key
while in game (`c`), after any in-session commands `cmds` (frames, pause key, Escape, help
open, help close) and one more in-session command `d`:
the game-over cue has been logged at most once since the session opened, and exactly once iff
the lives are 0; the game-over flag is set iff the lives are 0; the command `d` logs the cue
iff the lives were positive before it and are 0 after it; an `update` run while the flag is
clear finds positive lives, sets the flag iff it leaves 0 lives and logs the cue exactly
then; and once the flag is set no in-session command logs the cue again. -/
theorem gameover_cue_once (cw : ℚ) (rand : ℕ → ℚ) (g : Game) (c : Cmd) (cmds : List Cmd)
    (d : Cmd) (hs : Cmd.startsSession g c = true) (hin : ∀ x ∈ cmds, Cmd.inSession x = true)
    (hd : Cmd.inSession d = true) :
    gameoverCount (step cw rand g c).cues = gameoverCount g.cues ∧
    gameoverCount (step cw rand (run cw rand (step cw rand g c) cmds) d).cues ≤
      gameoverCount (step cw rand g c).cues + 1 ∧
    gameoverCount (step cw rand (run cw rand (step cw rand g c) cmds) d).cues =
      gameoverCount (step cw rand g c).cues +
        (if (step cw rand (run cw rand (step cw rand g c) cmds) d).world.lives = 0
          then 1 else 0) ∧
    ((step cw rand (run cw rand (step cw rand g c) cmds) d).gameOver = true ↔
      (step cw rand (run cw rand (step cw rand g c) cmds) d).world.lives = 0) ∧
    gameoverCount (step cw rand (run cw rand (step cw rand g c) cmds) d).cues =
      gameoverCount (run cw rand (step cw rand g c) cmds).cues +
        (if 0 < (run cw rand (step cw rand g c) cmds).world.lives ∧
            (step cw rand (run cw rand (step cw rand g c) cmds) d).world.lives = 0
          then 1 else 0) ∧
    (∀ (dt : ℚ) (k : Keys), (run cw rand (step cw rand g c) cmds).gameOver = false →
      0 < (run cw rand (step cw rand g c) cmds).world.lives ∧
      ((update cw rand dt k (run cw rand (step cw rand g c) cmds)).gameOver = true ↔
        (update cw rand dt k (run cw rand (step cw rand g c) cmds)).world.lives = 0) ∧
      gameoverCount (update cw rand dt k (run cw rand (step cw rand g c) cmds)).cues =
        gameoverCount (run cw rand (step cw rand g c) cmds).cues +
          (if (update cw rand dt k (run cw rand (step cw rand g c) cmds)).world.lives = 0
            then 1 else 0)) ∧
    ((run cw rand (step cw rand g c) cmds).gameOver = true →
      gameoverCount (step cw rand (run cw rand (step cw rand g c) cmds) d).cues =
        gameoverCount (run cw rand (step cw rand g c) cmds).cues) := by
  obtain ⟨hstart, hcount⟩ := sessionInv_start rand g c cw hs
  have hk := run_inSession cw rand (gameoverCount g.cues) cmds (step cw rand g c) hin hstart
  obtain ⟨hinv, hstep⟩ := step_inSession cw rand (gameoverCount g.cues)
    (run cw rand (step cw rand g c) cmds) d hd hk
  generalize run cw rand (step cw rand g c) cmds = gk at hk hinv hstep ⊢
  generalize step cw rand gk d = gk1 at hinv hstep ⊢
  obtain ⟨k0, kiff, kcnt⟩ := hk
  obtain ⟨i0, iiff, icnt⟩ := hinv
  have hlast : gameoverCount gk1.cues =
      gameoverCount g.cues + (if gk1.world.lives = 0 then 1 else 0) := by
    rw [icnt]
    by_cases hz : gk1.world.lives = 0
    · simp [hz, iiff.2 hz]
    · have hf : gk1.gameOver = false := by
        cases hx : gk1.gameOver
        · rfl
        · exact absurd (iiff.1 hx) hz
      simp [hz, hf]
  refine ⟨hcount, ?_, ?_, iiff, hstep, ?_, ?_⟩
  · rw [hcount, hlast]; split <;> omega
  · rw [hcount, hlast]
  · intro dt k hgo
    have hl : 0 < gk.world.lives := by
      have hne : gk.world.lives ≠ 0 := fun h => by
        have := kiff.2 h
        rw [hgo] at this
        exact Bool.noConfusion this
      omega
    exact ⟨hl, (update_gameOver_spec cw rand dt k gk hgo hl).2⟩
  · intro hgo
    rw [hstep]
    have : ¬ (0 < gk.world.lives ∧ gk1.world.lives = 0) := by
      intro h
      have := kiff.1 hgo
      omega
    simp [this]

/-- C2 at a concrete input: start from the menu, one frame, a pause, then another frame. -/
theorem gameover_cue_once_witness :
    Cmd.startsSession (initGame 0 true) (Cmd.startClick 0) = true ∧
    (∀ x ∈ [Cmd.frame 16 noKeys, Cmd.pauseKey], Cmd.inSession x = true) ∧
    Cmd.inSession (Cmd.frame 33 noKeys) = true ∧
    gameoverCount (step 800 halfRand (run 800 halfRand
        (step 800 halfRand (initGame 0 true) (Cmd.startClick 0))
        [Cmd.frame 16 noKeys, Cmd.pauseKey]) (Cmd.frame 33 noKeys)).cues ≤
      gameoverCount (step 800 halfRand (initGame 0 true) (Cmd.startClick 0)).cues + 1 :=
  ⟨rfl, by decide, rfl,
    (gameover_cue_once 800 halfRand (initGame 0 true) (Cmd.startClick 0)
      [Cmd.frame 16 noKeys, Cmd.pauseKey] (Cmd.frame 33 noKeys) rfl (by decide) rfl).2.1⟩

/-- C3. `jumpsLeft` stays in {0, 1, 2}: `start` sets it to 2; `update` keeps it in
{0, 1, 2}; a tick that begins with `jumpsLeft = 0` does not take the jump branch whatever the
keys, so its velocity is 0 after a landing and the old velocity plus gravity otherwise; and a
tick that ends landed ends with `jumpsLeft = 2`. -/
theorem jumpsLeft_range (cw : ℚ) (rand : ℕ → ℚ) (now dt : ℚ) (k : Keys) (g : Game) :
    (start rand now g).world.hero.jumpsLeft = 2 ∧
    (g.world.hero.jumpsLeft = 0 ∨ g.world.hero.jumpsLeft = 1 ∨ g.world.hero.jumpsLeft = 2 →
      (update cw rand dt k g).world.hero.jumpsLeft = 0 ∨
        (update cw rand dt k g).world.hero.jumpsLeft = 1 ∨
        (update cw rand dt k g).world.hero.jumpsLeft = 2) ∧
    (g.world.hero.jumpsLeft = 0 →
      jumpTaken k (moveHero cw dt k g) = false ∧
      (update cw rand dt k g).world.hero.vy =
        (if (update cw rand dt k g).world.hero.onGround = true then 0
          else g.world.hero.vy + 900 * dt) ∧
      (update cw rand dt k g).world.hero.jumpsLeft =
        (if (update cw rand dt k g).world.hero.onGround = true then 2 else 0)) ∧
    ((update cw rand dt k g).world.hero.onGround = true →
      (update cw rand dt k g).world.hero.jumpsLeft = 2) := by
  have hc := physicsHero_cases dt g.world.platform (jumpStep k (moveHero cw dt k g)).world.hero
  rw [← update_hero cw rand] at hc
  refine ⟨rfl, ?_, ?_, ?_⟩
  · intro hj
    rcases hc with ⟨_, h2, _⟩ | ⟨_, hs, _, _⟩
    · exact Or.inr (Or.inr h2)
    · rw [hs]
      cases ht : jumpTaken k (moveHero cw dt k g)
      · rw [jumpStep_hero_of_not_taken k _ ht]; exact hj
      · rw [jumpStep_hero_of_taken k _ ht]
        have hpos : 0 < g.world.hero.jumpsLeft := by
          simpa [jumpTaken] using (And.right (by simpa [jumpTaken] using ht))
        show g.world.hero.jumpsLeft - 1 = 0 ∨ g.world.hero.jumpsLeft - 1 = 1 ∨
          g.world.hero.jumpsLeft - 1 = 2
        omega
  · intro hj
    have ht : jumpTaken k (moveHero cw dt k g) = false := by
      have : (moveHero cw dt k g).world.hero.jumpsLeft = 0 := hj
      simp [jumpTaken, this]
    rw [jumpStep_hero_of_not_taken k _ ht] at hc
    refine ⟨ht, ?_⟩
    rcases hc with ⟨h1, h2, h3⟩ | ⟨h1, h2, h3, _⟩
    · simp [h1, h2, h3]
    · have e1 : (moveHero cw dt k g).world.hero.jumpsLeft = 0 := hj
      have e2 : (moveHero cw dt k g).world.hero.vy = g.world.hero.vy := rfl
      simp [h1, h2, h3, e1, e2]
  · intro hg
    rcases hc with ⟨_, h2, _⟩ | ⟨h1, _, _, _⟩
    · exact h2
    · rw [hg] at h1; exact Bool.noConfusion h1

/-- C3 at a concrete input: the opening state with the jump key newly pressed. -/
theorem jumpsLeft_range_witness :
    ((initGame 0 true).world.hero.jumpsLeft = 0 ∨ (initGame 0 true).world.hero.jumpsLeft = 1 ∨
      (initGame 0 true).world.hero.jumpsLeft = 2) ∧
    ((update 800 halfRand (1 / 60) spaceKey (initGame 0 true)).world.hero.jumpsLeft = 0 ∨
      (update 800 halfRand (1 / 60) spaceKey (initGame 0 true)).world.hero.jumpsLeft = 1 ∨
      (update 800 halfRand (1 / 60) spaceKey (initGame 0 true)).world.hero.jumpsLeft = 2) :=
  ⟨by decide,
    (jumpsLeft_range 800 halfRand 0 (1 / 60) spaceKey (initGame 0 true)).2.1 (by decide)⟩

/-- C4. In every tick the coins kept by the coin-collision step are exactly the scrolled and
culled coins that do not overlap the hero, in their order, and the score grows by the number
of coins that overlap; so one overlapping coin is removed and adds exactly 1, and two
overlapping coins add 2. -/
theorem coin_collision (cw : ℚ) (rand : ℕ → ℚ) (dt : ℚ) (k : Keys) (g : Game) :
    (update cw rand dt k g).world.coins =
      (preCollision cw rand dt k g).world.coins.filter
        (fun c => !aabb (preCollision cw rand dt k g).world.hero.toBox c) ∧
    (update cw rand dt k g).world.score =
      g.world.score + (((preCollision cw rand dt k g).world.coins.filter
        (fun c => aabb (preCollision cw rand dt k g).world.hero.toBox c)).length : ℤ) ∧
    (∀ c : Box, (preCollision cw rand dt k g).world.coins = [c] →
      aabb (preCollision cw rand dt k g).world.hero.toBox c = true →
      (update cw rand dt k g).world.coins = [] ∧
        (update cw rand dt k g).world.score = g.world.score + 1) ∧
    (∀ c1 c2 : Box, (preCollision cw rand dt k g).world.coins = [c1, c2] →
      aabb (preCollision cw rand dt k g).world.hero.toBox c1 = true →
      aabb (preCollision cw rand dt k g).world.hero.toBox c2 = true →
      (update cw rand dt k g).world.coins = [] ∧
        (update cw rand dt k g).world.score = g.world.score + 2) := by
  obtain ⟨h1, h2, _⟩ := coinCollision_spec (preCollision cw rand dt k g).world.hero
    (preCollision cw rand dt k g).world.coins (preCollision cw rand dt k g).world.score
    (preCollision cw rand dt k g).cues
  rw [← update_coins] at h1
  rw [← update_score, preCollision_score] at h2
  refine ⟨h1, h2, ?_, ?_⟩
  · intro c hc ha
    rw [h1, h2, hc]
    simp [ha]
  · intro c1 c2 hc ha1 ha2
    rw [h1, h2, hc]
    simp [ha1, ha2]

/-- C4 at a concrete input: one coin inside the hero box is collected for one point. -/
theorem coin_collision_witness :
    (preCollision 800 halfRand (1 / 60) noKeys coinScene).world.coins =
      [{ x := 50 - 220 * (1 / 60), y := 300, w := 24, h := 24 }] ∧
    aabb (preCollision 800 halfRand (1 / 60) noKeys coinScene).world.hero.toBox
      { x := 50 - 220 * (1 / 60), y := 300, w := 24, h := 24 } = true ∧
    (update 800 halfRand (1 / 60) noKeys coinScene).world.coins = [] ∧
    (update 800 halfRand (1 / 60) noKeys coinScene).world.score = coinScene.world.score + 1 :=
  ⟨coinScene_coins, coinScene_overlap,
    (coin_collision 800 halfRand (1 / 60) noKeys coinScene).2.2.1 _ coinScene_coins
      coinScene_overlap⟩

/-- C5, refuted as stated: with one life left and two spikes on the hero, the second spike is
evaluated when the lives are already 0, and it is removed all the same: no spike is left. -/
theorem spike_left_in_place_counterexample :
    spikeScene.world.lives = 1 ∧
    (preCollision 800 halfRand (1 / 60) noKeys spikeScene).world.spikes =
      [{ x := 50 - 220 * (1 / 60), y := 300, w := 40, h := 40 },
       { x := 60 - 220 * (1 / 60), y := 300, w := 40, h := 40 }] ∧
    aabb (preCollision 800 halfRand (1 / 60) noKeys spikeScene).world.hero.toBox
      { x := 50 - 220 * (1 / 60), y := 300, w := 40, h := 40 } = true ∧
    aabb (preCollision 800 halfRand (1 / 60) noKeys spikeScene).world.hero.toBox
      { x := 60 - 220 * (1 / 60), y := 300, w := 40, h := 40 } = true ∧
    (update 800 halfRand (1 / 60) noKeys spikeScene).world.lives = 0 ∧
    (update 800 halfRand (1 / 60) noKeys spikeScene).world.spikes = [] := by
  have h1 : aabb (preCollision 800 halfRand (1 / 60) noKeys spikeScene).world.hero.toBox
      { x := 50 - 220 * (1 / 60), y := 300, w := 40, h := 40 } = true := by
    rw [spikeScene_hero]; norm_num [aabb, Hero.toBox]
  have h2 : aabb (preCollision 800 halfRand (1 / 60) noKeys spikeScene).world.hero.toBox
      { x := 60 - 220 * (1 / 60), y := 300, w := 40, h := 40 } = true := by
    rw [spikeScene_hero]; norm_num [aabb, Hero.toBox]
  refine ⟨rfl, spikeScene_spikes, h1, h2, ?_, ?_⟩
  · rw [update_lives _ _ _ _ _ (by decide), spikeScene_spikes]
    simp only [List.filter, h1, h2, List.length]
    decide
  · rw [update_spikes, spikeScene_spikes]
    simp only [List.filter, h1, h2, Bool.not_true]

/-- C5, amended. The spike-collision step removes every spike that overlaps the hero,
whatever the lives: the spikes kept are exactly the scrolled and culled spikes that do not
overlap. An overlapping spike costs one life and logs a hit while lives > 0; evaluated at
lives 0 or below it is removed as well and changes neither the lives nor the log. From
`lives ≥ 0` the tick ends with `max 0 (lives - overlapping spikes)` lives. -/
theorem spike_collision (cw : ℚ) (rand : ℕ → ℚ) (dt : ℚ) (k : Keys) (g : Game)
    (hero : Hero) (s : Box) (ss : List Box) (lives : ℤ) (cues : List Cue) :
    (update cw rand dt k g).world.spikes =
      (preCollision cw rand dt k g).world.spikes.filter
        (fun s => !aabb (preCollision cw rand dt k g).world.hero.toBox s) ∧
    (0 ≤ g.world.lives →
      (update cw rand dt k g).world.lives =
        max 0 (g.world.lives - (((preCollision cw rand dt k g).world.spikes.filter
          (fun s => aabb (preCollision cw rand dt k g).world.hero.toBox s)).length : ℤ))) ∧
    (aabb hero.toBox s = true → 0 < lives →
      spikeCollision hero (s :: ss) lives cues =
        spikeCollision hero ss (lives - 1) (cues ++ [Cue.hit])) ∧
    (aabb hero.toBox s = true → lives ≤ 0 →
      spikeCollision hero (s :: ss) lives cues = spikeCollision hero ss lives cues) := by
  refine ⟨update_spikes cw rand dt k g, update_lives cw rand dt k g, ?_, ?_⟩
  · intro ha hl
    rw [spikeCollision]
    simp [ha, hl]
  · intro ha hl
    rw [spikeCollision]
    have : ¬ lives > 0 := by omega
    simp [ha, this]

/-- C5 amended, at a concrete input: the two-spike scene with one life. -/
theorem spike_collision_witness :
    0 ≤ spikeScene.world.lives ∧
    aabb (initGame 0 true).world.hero.toBox { x := 50, y := 300, w := 40, h := 40 } = true ∧
    (0 : ℤ) ≤ 0 ∧
    (update 800 halfRand (1 / 60) noKeys spikeScene).world.lives =
      max 0 (spikeScene.world.lives -
        (((preCollision 800 halfRand (1 / 60) noKeys spikeScene).world.spikes.filter
          (fun s => aabb (preCollision 800 halfRand (1 / 60) noKeys spikeScene).world.hero.toBox
            s)).length : ℤ)) ∧
    spikeCollision (initGame 0 true).world.hero [{ x := 50, y := 300, w := 40, h := 40 }] 0 [] =
      spikeCollision (initGame 0 true).world.hero [] 0 [] :=
  have ha : aabb (initGame 0 true).world.hero.toBox { x := 50, y := 300, w := 40, h := 40 } =
      true := by norm_num [aabb, Hero.toBox, initGame, GROUND_Y]
  ⟨by decide, ha, le_refl 0,
    (spike_collision 800 halfRand (1 / 60) noKeys spikeScene (initGame 0 true).world.hero
      { x := 50, y := 300, w := 40, h := 40 } [] 0 []).2.1 (by decide),
    (spike_collision 800 halfRand (1 / 60) noKeys spikeScene (initGame 0 true).world.hero
      { x := 50, y := 300, w := 40, h := 40 } [] 0 []).2.2.2 ha (le_refl 0)⟩

/-- C6, on the failing input: for the platform at `y = 200` and the draws one half, then 0,
`platformCoinY` returns 242, strictly inside the band from `platform.y - 10 = 190` to
`platform.y + hero.h + 10 = 250` around a hero of height 40 standing on the platform. The
code builds its band from `HERO_FRAME_H = 32`, the height of a sprite frame. -/
theorem platformCoinY_inside_hero_band :
    PLATFORM_MIN_Y ≤ bandPlatform.y ∧ bandPlatform.y ≤ PLATFORM_MAX_Y ∧
    (∀ n, 0 ≤ bandRand n ∧ bandRand n < 1) ∧
    (initGame 0 true).world.hero.h = 40 ∧
    (platformCoinY bandRand 0 bandPlatform).1 = 242 ∧
    bandPlatform.y - 10 < (platformCoinY bandRand 0 bandPlatform).1 ∧
    (platformCoinY bandRand 0 bandPlatform).1 <
      bandPlatform.y + (initGame 0 true).world.hero.h + 10 := by
  have hy : (platformCoinY bandRand 0 bandPlatform).1 = 242 := by
    rw [platformCoinY_in_range _ _ _ (by norm_num [PLATFORM_MIN_Y, GROUND_Y, bandPlatform])
      (by norm_num [PLATFORM_MAX_Y, GROUND_Y, bandPlatform])]
    norm_num [bandRand, bandPlatform, HERO_FRAME_H, GROUND_Y]
  refine ⟨by norm_num [PLATFORM_MIN_Y, GROUND_Y, bandPlatform],
    by norm_num [PLATFORM_MAX_Y, GROUND_Y, bandPlatform], ?_, rfl, hy, ?_, ?_⟩
  · intro n
    unfold bandRand
    split <;> norm_num
  · rw [hy]; norm_num [bandPlatform]
  · rw [hy]; norm_num [bandPlatform, initGame]

/-- C7, refuted as stated: with the platform at `y = 200` over the spawn column and every
draw one quarter, `spawnCoin` creates a coin at `y = 155 / 2`, above the open-field ceiling
`GROUND_Y - 2 * MAX_JUMP_HEIGHT = 140`. -/
theorem spawnCoin_above_ceiling_counterexample :
    (∀ n, 0 ≤ quarterRand n ∧ quarterRand n < 1) ∧
    PLATFORM_MIN_Y ≤ bandPlatform.y ∧ bandPlatform.y ≤ PLATFORM_MAX_Y ∧
    (spawnCoin 800 quarterRand platformScene).world.coins =
      [{ x := 840, y := 155 / 2, w := 24, h := 24 }] ∧
    ¬ (GROUND_Y - 2 * MAX_JUMP_HEIGHT ≤ (155 / 2 : ℚ)) := by
  refine ⟨fun n => by norm_num [quarterRand], by norm_num [PLATFORM_MIN_Y, GROUND_Y, bandPlatform],
    by norm_num [PLATFORM_MAX_Y, GROUND_Y, bandPlatform], ?_, by norm_num [GROUND_Y, MAX_JUMP_HEIGHT]⟩
  have hy : platformCoinY quarterRand 0 bandPlatform = (155 / 2, 2) := by
    rw [platformCoinY_in_range _ _ _ (by norm_num [PLATFORM_MIN_Y, GROUND_Y, bandPlatform])
      (by norm_num [PLATFORM_MAX_Y, GROUND_Y, bandPlatform])]
    norm_num [quarterRand, bandPlatform, MAX_JUMP_HEIGHT]
  have hs : spawnCoinY 800 quarterRand platformScene = (155 / 2, 2) := by
    rw [← hy]
    norm_num [spawnCoinY, platformScene, initGame, bandPlatform]
  simp only [spawnCoin, hs]
  norm_num [platformScene, initGame]

/-- C7, amended. For draws in [0, 1) and a platform, if any, with `y` in
[`GROUND_Y - 140`, `GROUND_Y - 60`], `spawnCoin` appends exactly one coin, at
`x = canvas width + 40`, with `y` in [0, `GROUND_Y`]. Open-field placement gives `y` in
[`GROUND_Y - 2 * MAX_JUMP_HEIGHT`, `GROUND_Y`]; platform-aware placement gives `y` in
[`max 0 (platform.y - 2 * MAX_JUMP_HEIGHT)`, `GROUND_Y`]: its range above the band starts two
jump heights above the platform, which is above the open-field ceiling. -/
theorem spawnCoin_y_range (cw : ℚ) (rand : ℕ → ℚ) (g : Game)
    (hr : ∀ n, 0 ≤ rand n ∧ rand n < 1)
    (hp : ∀ p, g.world.platform = some p → PLATFORM_MIN_Y ≤ p.y ∧ p.y ≤ PLATFORM_MAX_Y) :
    (spawnCoin cw rand g).world.coins =
      g.world.coins ++ [{ x := cw + 40, y := (spawnCoinY cw rand g).1, w := 24, h := 24 }] ∧
    0 ≤ (spawnCoinY cw rand g).1 ∧ (spawnCoinY cw rand g).1 ≤ GROUND_Y ∧
    (∀ pos, GROUND_Y - 2 * MAX_JUMP_HEIGHT ≤ (groundCoinY rand pos).1 ∧
      (groundCoinY rand pos).1 ≤ GROUND_Y) ∧
    (∀ p pos, PLATFORM_MIN_Y ≤ p.y → p.y ≤ PLATFORM_MAX_Y →
      max 0 (p.y - 2 * MAX_JUMP_HEIGHT) ≤ (platformCoinY rand pos p).1 ∧
        (platformCoinY rand pos p).1 ≤ GROUND_Y) := by
  have hg : ∀ pos, 0 ≤ (groundCoinY rand pos).1 ∧ (groundCoinY rand pos).1 ≤ GROUND_Y := by
    intro pos
    have := groundCoinY_bounds rand pos hr
    refine ⟨?_, this.2⟩
    have h := this.1
    simp only [GROUND_Y, MAX_JUMP_HEIGHT] at h
    linarith
  refine ⟨rfl, ?_, ?_, fun pos => groundCoinY_bounds rand pos hr,
    fun p pos h1 h2 => platformCoinY_bounds rand pos p hr h1 h2⟩
  · unfold spawnCoinY
    cases hq : g.world.platform with
    | none => exact (hg _).1
    | some p =>
      simp only []
      split
      · exact le_trans (le_max_left _ _)
          (platformCoinY_bounds rand _ p hr (hp p hq).1 (hp p hq).2).1
      · exact (hg _).1
  · unfold spawnCoinY
    cases hq : g.world.platform with
    | none => exact (hg _).2
    | some p =>
      simp only []
      split
      · exact (platformCoinY_bounds rand _ p hr (hp p hq).1 (hp p hq).2).2
      · exact (hg _).2

/-- C7 amended, at a concrete input: the platform scene with every draw one quarter. -/
theorem spawnCoin_y_range_witness :
    (∀ n, 0 ≤ quarterRand n ∧ quarterRand n < 1) ∧
    (∀ p, platformScene.world.platform = some p → PLATFORM_MIN_Y ≤ p.y ∧ p.y ≤ PLATFORM_MAX_Y) ∧
    0 ≤ (spawnCoinY 800 quarterRand platformScene).1 ∧
    (spawnCoinY 800 quarterRand platformScene).1 ≤ GROUND_Y :=
  have hr : ∀ n, 0 ≤ quarterRand n ∧ quarterRand n < 1 := fun n => by norm_num [quarterRand]
  have hp : ∀ p, platformScene.world.platform = some p →
      PLATFORM_MIN_Y ≤ p.y ∧ p.y ≤ PLATFORM_MAX_Y := by
    intro p h
    have e : p = bandPlatform := by
      simp only [platformScene, Option.some.injEq] at h
      exact h.symm
    subst e
    norm_num [PLATFORM_MIN_Y, PLATFORM_MAX_Y, GROUND_Y, bandPlatform]
  ⟨hr, hp, (spawnCoin_y_range 800 quarterRand platformScene hr hp).2.1,
    (spawnCoin_y_range 800 quarterRand platformScene hr hp).2.2.1⟩

/-- C10. A tick with `0 < dt ≤ 0.033`, the jump key down and not down on the previous tick,
`jumpsLeft > 0` and the hero at or above ground height ends with `onGround = false`,
`jumpsLeft` one less and `vy = -380 + 900 * dt`: no landing cancels the jump. Hence, from
standing on the ground with two jumps, over five ticks press, release, press, release, press:
after the second press `jumpsLeft = 0`, the hero has not landed in between, and the third
press only adds gravity to the velocity, which is not the jump velocity. -/
theorem double_jump (cw : ℚ) (rand : ℕ → ℚ) :
    (∀ (dt : ℚ) (k : Keys) (g : Game), 0 < dt → dt ≤ 33 / 1000 → k.space = true →
      g.spaceWasDown = false → 0 < g.world.hero.jumpsLeft → g.world.hero.y ≤ GROUND_Y →
      (update cw rand dt k g).world.hero.onGround = false ∧
        (update cw rand dt k g).world.hero.jumpsLeft = g.world.hero.jumpsLeft - 1 ∧
        (update cw rand dt k g).world.hero.vy = -380 + 900 * dt) ∧
    (∀ (g : Game) (d1 d2 d3 d4 d5 : ℚ) (k1 k2 k3 k4 k5 : Keys),
      g.world.hero.y = GROUND_Y → g.world.hero.jumpsLeft = 2 → g.spaceWasDown = false →
      (0 < d1 ∧ d1 ≤ 33 / 1000) → (0 < d2 ∧ d2 ≤ 33 / 1000) → (0 < d3 ∧ d3 ≤ 33 / 1000) →
      (0 < d4 ∧ d4 ≤ 33 / 1000) → (0 < d5 ∧ d5 ≤ 33 / 1000) →
      k1.space = true → k2.space = false → k3.space = true → k4.space = false →
      k5.space = true →
      (ticks cw rand g [(d1, k1)]).world.hero.jumpsLeft = 1 ∧
      (ticks cw rand g [(d1, k1), (d2, k2)]).world.hero.onGround = false ∧
      (ticks cw rand g [(d1, k1), (d2, k2), (d3, k3)]).world.hero.jumpsLeft = 0 ∧
      (ticks cw rand g [(d1, k1), (d2, k2), (d3, k3)]).world.hero.vy = -380 + 900 * d3 ∧
      (ticks cw rand g [(d1, k1), (d2, k2), (d3, k3), (d4, k4)]).world.hero.onGround = false ∧
      (ticks cw rand g [(d1, k1), (d2, k2), (d3, k3), (d4, k4), (d5, k5)]).world.hero.vy =
        (ticks cw rand g [(d1, k1), (d2, k2), (d3, k3), (d4, k4)]).world.hero.vy + 900 * d5 ∧
      (ticks cw rand g [(d1, k1), (d2, k2), (d3, k3), (d4, k4), (d5, k5)]).world.hero.vy ≠
        -380 + 900 * d5 ∧
      (ticks cw rand g [(d1, k1), (d2, k2), (d3, k3), (d4, k4), (d5, k5)]).world.hero.jumpsLeft
        = 0) := by
  constructor
  · intro dt k g hdt hmax hk hw hj hy
    obtain ⟨a, b, c, _, _⟩ := tick_jump cw rand dt k g hdt hmax hk hw hj hy
    exact ⟨a, c, b⟩
  · intro g d1 d2 d3 d4 d5 k1 k2 k3 k4 k5 hy hj hw h1 h2 h3 h4 h5 s1 s2 s3 s4 s5
    simp only [ticks, List.foldl]
    obtain ⟨_, v1, j1, y1, w1⟩ := tick_jump cw rand d1 k1 g h1.1 h1.2 s1 hw
      (by rw [hj]; decide) (le_of_eq hy)
    rw [hj] at j1
    generalize update cw rand d1 k1 g = u1 at v1 j1 y1 w1 ⊢
    obtain ⟨o2, v2, j2, y2, w2⟩ := tick_coast cw rand d2 k2 u1 h2.1
      (by rw [jumpTaken_moveHero]; simp [s2]) (by rw [v1]; linarith [h1.2, h2.2]) y1
    rw [v1] at v2
    rw [j1] at j2
    rw [s2] at w2
    generalize update cw rand d2 k2 u1 = u2 at o2 v2 j2 y2 w2 ⊢
    obtain ⟨_, v3, j3, y3, w3⟩ := tick_jump cw rand d3 k3 u2 h3.1 h3.2 s3 w2
      (by rw [j2]; decide) y2
    rw [j2] at j3
    generalize update cw rand d3 k3 u2 = u3 at v3 j3 y3 w3 ⊢
    obtain ⟨o4, v4, j4, y4, w4⟩ := tick_coast cw rand d4 k4 u3 h4.1
      (by rw [jumpTaken_moveHero]; simp [s4]) (by rw [v3]; linarith [h3.2, h4.2]) y3
    rw [j3] at j4
    generalize update cw rand d4 k4 u3 = u4 at o4 v4 j4 y4 w4 ⊢
    obtain ⟨_, v5, j5, _, _⟩ := tick_coast cw rand d5 k5 u4 h5.1
      (by rw [jumpTaken_moveHero]; simp [j4]) (by rw [v4, v3]; linarith [h3.2, h4.2, h5.2]) y4
    rw [j4] at j5
    refine ⟨j1, o2, by rw [j3]; rfl, v3, o4, v5, ?_, by rw [j5]; rfl⟩
    rw [v5, v4, v3]
    intro h
    linarith [h3.1, h4.1]

/-- C10 at a concrete input: the opening state, frames of a sixtieth of a second. -/
theorem double_jump_witness :
    ((0 : ℚ) < 1 / 60 ∧ (1 / 60 : ℚ) ≤ 33 / 1000) ∧ spaceKey.space = true ∧
    noKeys.space = false ∧ (initGame 0 true).spaceWasDown = false ∧
    0 < (initGame 0 true).world.hero.jumpsLeft ∧
    (initGame 0 true).world.hero.y = GROUND_Y ∧ (initGame 0 true).world.hero.jumpsLeft = 2 ∧
    ((update 800 halfRand (1 / 60) spaceKey (initGame 0 true)).world.hero.onGround = false ∧
      (update 800 halfRand (1 / 60) spaceKey (initGame 0 true)).world.hero.jumpsLeft =
        (initGame 0 true).world.hero.jumpsLeft - 1 ∧
      (update 800 halfRand (1 / 60) spaceKey (initGame 0 true)).world.hero.vy =
        -380 + 900 * (1 / 60)) ∧
    (ticks 800 halfRand (initGame 0 true)
      [(1 / 60, spaceKey), (1 / 60, noKeys), (1 / 60, spaceKey)]).world.hero.jumpsLeft = 0 ∧
    (ticks 800 halfRand (initGame 0 true)
      [(1 / 60, spaceKey), (1 / 60, noKeys), (1 / 60, spaceKey), (1 / 60, noKeys),
        (1 / 60, spaceKey)]).world.hero.vy ≠ -380 + 900 * (1 / 60) :=
  have hd : (0 : ℚ) < 1 / 60 ∧ (1 / 60 : ℚ) ≤ 33 / 1000 := by norm_num
  have hs := (double_jump 800 halfRand).2 (initGame 0 true) (1 / 60) (1 / 60) (1 / 60) (1 / 60)
    (1 / 60) spaceKey noKeys spaceKey noKeys spaceKey rfl rfl rfl hd hd hd hd hd rfl rfl rfl rfl rfl
  ⟨hd, rfl, rfl, rfl, by decide, rfl, rfl,
    (double_jump 800 halfRand).1 (1 / 60) spaceKey (initGame 0 true) hd.1 hd.2 rfl rfl
      (by decide) (le_of_eq rfl),
    hs.2.2.1, hs.2.2.2.2.2.2.1⟩

/-- C11. With no key held and no platform, a tick that starts with the hero at
`y = GROUND_Y` and `vy = 0` ends, for every `dt`, with `y = GROUND_Y`, `vy = 0`,
`onGround = true` and `jumpsLeft = 2`. Hence over any list of such ticks, with no draw below
0.004 so that no platform is spawned in between, the hero is at `GROUND_Y` with `vy = 0`
after every tick and the platform stays absent. -/
theorem ground_rest (cw : ℚ) (rand : ℕ → ℚ) (g : Game) (hp : g.world.platform = none)
    (hy : g.world.hero.y = GROUND_Y) (hv : g.world.hero.vy = 0) :
    (∀ dt : ℚ,
      (update cw rand dt noKeys g).world.hero.y = GROUND_Y ∧
      (update cw rand dt noKeys g).world.hero.vy = 0 ∧
      (update cw rand dt noKeys g).world.hero.onGround = true ∧
      (update cw rand dt noKeys g).world.hero.jumpsLeft = 2) ∧
    ((∀ n, 4 / 1000 ≤ rand n) → ∀ (dts : List ℚ) (d : ℚ),
      (ticks cw rand g (idleTicks dts)).world.platform = none ∧
      (ticks cw rand g (idleTicks dts)).world.hero.y = GROUND_Y ∧
      (ticks cw rand g (idleTicks dts)).world.hero.vy = 0 ∧
      (ticks cw rand g (idleTicks (dts ++ [d]))).world.hero.y = GROUND_Y ∧
      (ticks cw rand g (idleTicks (dts ++ [d]))).world.hero.vy = 0 ∧
      (ticks cw rand g (idleTicks (dts ++ [d]))).world.hero.onGround = true ∧
      (ticks cw rand g (idleTicks (dts ++ [d]))).world.hero.jumpsLeft = 2) := by
  constructor
  · intro dt
    exact tick_ground_rest cw rand dt noKeys g rfl hp hy hv
  · intro hr dts d
    have inv : ∀ l : List ℚ,
        (ticks cw rand g (idleTicks l)).world.platform = none ∧
        (ticks cw rand g (idleTicks l)).world.hero.y = GROUND_Y ∧
        (ticks cw rand g (idleTicks l)).world.hero.vy = 0 := by
      intro l
      induction l using List.reverseRecOn with
      | nil => exact ⟨hp, hy, hv⟩
      | append_singleton l a ih =>
        have e : idleTicks (l ++ [a]) = idleTicks l ++ [(a, noKeys)] := by
          simp [idleTicks]
        rw [e, ticks_append]
        obtain ⟨i1, i2, i3⟩ := ih
        obtain ⟨t1, t2, _, _⟩ := tick_ground_rest cw rand a noKeys
          (ticks cw rand g (idleTicks l)) rfl i1 i2 i3
        exact ⟨update_platform_of_none cw rand a noKeys _ i1 hr, t1, t2⟩
    obtain ⟨i1, i2, i3⟩ := inv dts
    have e : idleTicks (dts ++ [d]) = idleTicks dts ++ [(d, noKeys)] := by
      simp [idleTicks]
    refine ⟨i1, i2, i3, ?_⟩
    rw [e, ticks_append]
    exact tick_ground_rest cw rand d noKeys (ticks cw rand g (idleTicks dts)) rfl i1 i2 i3

/-- C11 at a concrete input: the opening state, sixty frames a second, no platform drawn. -/
theorem ground_rest_witness :
    (initGame 0 true).world.platform = none ∧ (initGame 0 true).world.hero.y = GROUND_Y ∧
    (initGame 0 true).world.hero.vy = 0 ∧ (∀ n, 4 / 1000 ≤ halfRand n) ∧
    (update 800 halfRand (1 / 60) noKeys (initGame 0 true)).world.hero.y = GROUND_Y ∧
    (ticks 800 halfRand (initGame 0 true)
      (idleTicks ([1 / 60, 1 / 60] ++ [1 / 60]))).world.hero.y = GROUND_Y ∧
    (ticks 800 halfRand (initGame 0 true)
      (idleTicks ([1 / 60, 1 / 60] ++ [1 / 60]))).world.hero.vy = 0 :=
  have hr : ∀ n, 4 / 1000 ≤ halfRand n := fun n => by norm_num [halfRand]
  ⟨rfl, rfl, rfl, hr,
    ((ground_rest 800 halfRand (initGame 0 true) rfl rfl rfl).1 (1 / 60)).1,
    ((ground_rest 800 halfRand (initGame 0 true) rfl rfl rfl).2 hr [1 / 60, 1 / 60]
      (1 / 60)).2.2.2.1,
    ((ground_rest 800 halfRand (initGame 0 true) rfl rfl rfl).2 hr [1 / 60, 1 / 60]
      (1 / 60)).2.2.2.2.1⟩

/-- C14. A frame outside the Playing state (Menu, Paused, GameOver, for every clock reading
and key set) changes nothing but the frame clock `last`: the world, the spawn timers and
intervals, the animation frames and timers and the jump edge memory are unchanged. A frame
in the Playing state runs `update` with `dt = min 0.033 ((now - last) / 1000)`. -/
theorem frame_gated (cw : ℚ) (rand : ℕ → ℚ) (now : ℚ) (k : Keys) (g : Game) :
    (sessionOf g ≠ some Session.playing →
      loop cw rand now k g = { g with last := now } ∧
      (loop cw rand now k g).world = g.world ∧
      (loop cw rand now k g).coinTimer = g.coinTimer ∧
      (loop cw rand now k g).coinInterval = g.coinInterval ∧
      (loop cw rand now k g).spikeTimer = g.spikeTimer ∧
      (loop cw rand now k g).spikeInterval = g.spikeInterval ∧
      (loop cw rand now k g).heroFrame = g.heroFrame ∧
      (loop cw rand now k g).heroFrameTimer = g.heroFrameTimer ∧
      (loop cw rand now k g).coinFrame = g.coinFrame ∧
      (loop cw rand now k g).coinFrameTimer = g.coinFrameTimer ∧
      (loop cw rand now k g).spaceWasDown = g.spaceWasDown) ∧
    (sessionOf g = some Session.playing →
      loop cw rand now k g =
        update cw rand (min (33 / 1000) ((now - g.last) / 1000)) k { g with last := now }) := by
  constructor
  · intro h
    rw [loop_idle cw rand now k g h]
    exact ⟨rfl, rfl, rfl, rfl, rfl, rfl, rfl, rfl, rfl, rfl, rfl⟩
  · exact loop_playing cw rand now k g

/-- C14 at a concrete input: a frame in the menu, and a frame in GameOver. -/
theorem frame_gated_witness :
    sessionOf (showMenu (initGame 0 true)) ≠ some Session.playing ∧
    sessionOf gameOverScene ≠ some Session.playing ∧
    (loop 800 halfRand 16 spaceKey (showMenu (initGame 0 true))).world =
      (showMenu (initGame 0 true)).world ∧
    (loop 800 halfRand 16 spaceKey gameOverScene).world = gameOverScene.world :=
  ⟨by decide, by decide,
    ((frame_gated 800 halfRand 16 spaceKey (showMenu (initGame 0 true))).1 (by decide)).2.1,
    ((frame_gated 800 halfRand 16 spaceKey gameOverScene).1 (by decide)).2.1⟩

/-- C15, refuted as stated: from a GameOver state the start handler `startFromMenu`, which is
neither the restart nor the return-to-menu command, leads to Playing. -/
theorem gameOver_exit_counterexample :
    sessionOf gameOverScene = some Session.gameOver ∧
    sessionOf (step 800 halfRand gameOverScene (Cmd.startClick 0)) = some Session.playing ∧
    (∀ now, Cmd.startClick 0 ≠ Cmd.restartKey now) ∧
    Cmd.startClick 0 ≠ Cmd.returnMenuClick :=
  ⟨by decide, by decide, fun _ h => Cmd.noConfusion h, fun h => Cmd.noConfusion h⟩

/-- C15, amended. Once in GameOver, every sequence of frames, pause toggles, Escape, help-open
and help-close commands leaves the session in GameOver with the world unchanged. The commands
that leave GameOver are restart (to Playing), return-to-menu (to Menu) and start (to Playing:
`startFromMenu` has no guard on the state). The game-over flag is only ever set by a frame
that runs `update` from Playing and ends with 0 lives. -/
theorem gameOver_one_way (cw : ℚ) (rand : ℕ → ℚ) (g : Game) :
    (sessionOf g = some Session.gameOver → ∀ cmds : List Cmd,
      (∀ x ∈ cmds, Cmd.inSession x = true) →
      sessionOf (run cw rand g cmds) = some Session.gameOver ∧
        (run cw rand g cmds).world = g.world) ∧
    (sessionOf g = some Session.gameOver → ∀ c : Cmd,
      sessionOf (step cw rand g c) ≠ some Session.gameOver →
      (∃ now, c = Cmd.restartKey now ∧ sessionOf (step cw rand g c) = some Session.playing) ∨
      (c = Cmd.returnMenuClick ∧ sessionOf (step cw rand g c) = some Session.menu) ∨
      (∃ now, c = Cmd.startClick now ∧ sessionOf (step cw rand g c) = some Session.playing)) ∧
    (g.gameOver = false → ∀ c : Cmd, (step cw rand g c).gameOver = true →
      ∃ (now : ℚ) (keys : Keys), c = Cmd.frame now keys ∧
        sessionOf g = some Session.playing ∧ (step cw rand g c).world.lives = 0) := by
  refine ⟨fun hg cmds hin => run_gameOver_stays cw rand cmds g hg hin, ?_,
    fun h0 c h1 => step_gameOver_flag cw rand g c h0 h1⟩
  intro hg c hne
  obtain ⟨h1, _, _⟩ := (sessionOf_gameOver_iff g).mp hg
  cases hc : c.inSession
  · cases c <;> simp [Cmd.inSession] at hc
    · rename_i now
      exact Or.inr (Or.inr ⟨now, rfl, rfl⟩)
    · exact Or.inr (Or.inl ⟨rfl, rfl⟩)
    · rename_i now
      refine Or.inl ⟨now, rfl, ?_⟩
      simp only [step, restartKey, h1, if_true]
      rfl
  · exact absurd (step_gameOver_stays cw rand g c hg hc).1 hne

/-- C15 amended, at a concrete input: GameOver survives a frame, a pause toggle and a help
round trip, and the restart key leaves it. -/
theorem gameOver_one_way_witness :
    sessionOf gameOverScene = some Session.gameOver ∧
    (∀ x ∈ [Cmd.frame 16 spaceKey, Cmd.pauseKey, Cmd.helpOpen, Cmd.helpClose],
      Cmd.inSession x = true) ∧
    sessionOf (step 800 halfRand gameOverScene (Cmd.restartKey 5)) ≠ some Session.gameOver ∧
    sessionOf (run 800 halfRand gameOverScene
      [Cmd.frame 16 spaceKey, Cmd.pauseKey, Cmd.helpOpen, Cmd.helpClose]) =
        some Session.gameOver ∧
    ((∃ now, Cmd.restartKey 5 = Cmd.restartKey now ∧
        sessionOf (step 800 halfRand gameOverScene (Cmd.restartKey 5)) = some Session.playing) ∨
      (Cmd.restartKey 5 = Cmd.returnMenuClick ∧
        sessionOf (step 800 halfRand gameOverScene (Cmd.restartKey 5)) = some Session.menu) ∨
      (∃ now, Cmd.restartKey 5 = Cmd.startClick now ∧
        sessionOf (step 800 halfRand gameOverScene (Cmd.restartKey 5)) =
          some Session.playing)) :=
  ⟨by decide, by decide, by decide,
    ((gameOver_one_way 800 halfRand gameOverScene).1 (by decide) _ (by decide)).1,
    (gameOver_one_way 800 halfRand gameOverScene).2.1 (by decide) (Cmd.restartKey 5)
      (by decide)⟩

/-- C16. For random draws in [0, 1), the start command (`startFromMenu`, from the menu or
any other state) and the restart key in any in-session state (`playing` set: Playing, Paused
or GameOver) both end in Playing with the world reset whatever it held: score 0, lives 3, hero
at `x = 50`, `y = GROUND_Y`, `vy = 0`, on the ground with two jumps, no coins, spikes or
platform, spawn timers and animation clocks 0, coin interval in [0.25, 0.6) and spike interval
in [0.9, 1.7). -/
theorem start_resets (rand : ℕ → ℚ) (now : ℚ) (g : Game)
    (hr : ∀ n, 0 ≤ rand n ∧ rand n < 1) :
    (sessionOf (startFromMenu rand now g) = some Session.playing ∧
      IsReset (startFromMenu rand now g)) ∧
    (g.playing = true →
      sessionOf (restartKey rand now g) = some Session.playing ∧
        IsReset (restartKey rand now g)) := by
  refine ⟨⟨rfl, start_isReset rand now _ hr⟩, ?_⟩
  intro hp
  have e : restartKey rand now g =
      start rand now { g with paused := false, gameOver := false } := by
    simp only [restartKey, hp, if_true]
  rw [e]
  refine ⟨?_, start_isReset rand now _ hr⟩
  apply (sessionOf_playing_iff _).mpr
  exact ⟨hp, rfl, rfl⟩

/-- C16 at a concrete input: restart from the GameOver scene, every draw one half. -/
theorem start_resets_witness :
    (∀ n, 0 ≤ halfRand n ∧ halfRand n < 1) ∧ gameOverScene.playing = true ∧
    sessionOf (restartKey halfRand 5 gameOverScene) = some Session.playing ∧
    IsReset (restartKey halfRand 5 gameOverScene) ∧
    IsReset (startFromMenu halfRand 5 (showMenu (initGame 0 true))) :=
  have hr : ∀ n, 0 ≤ halfRand n ∧ halfRand n < 1 := fun n => by norm_num [halfRand]
  ⟨hr, rfl, ((start_resets halfRand 5 gameOverScene hr).2 rfl).1,
    ((start_resets halfRand 5 gameOverScene hr).2 rfl).2,
    (start_resets halfRand 5 (showMenu (initGame 0 true)) hr).1.2⟩

/-- C20. From the initial `showMenu` state, after every sequence of commands (start, restart
key, pause toggle, Escape, help open, help close, return to menu) and frames, the flags
(playing, paused, gameOver) are one of Menu = (false, true, false), Playing = (true, false,
false), Paused = (true, true, false), GameOver = (true, true, true); so `gameOver` implies
`paused` and `playing`, and not `playing` implies `paused` and not `gameOver`. -/
theorem flags_encode_session (cw : ℚ) (rand : ℕ → ℚ) (now : ℚ) (helpHidden : Bool)
    (cmds : List Cmd) :
    sessionOf (showMenu (initGame now helpHidden)) = some Session.menu ∧
    (sessionOf (run cw rand (showMenu (initGame now helpHidden)) cmds) = some Session.menu ∨
      sessionOf (run cw rand (showMenu (initGame now helpHidden)) cmds) = some Session.playing ∨
      sessionOf (run cw rand (showMenu (initGame now helpHidden)) cmds) = some Session.paused ∨
      sessionOf (run cw rand (showMenu (initGame now helpHidden)) cmds) =
        some Session.gameOver) ∧
    ((run cw rand (showMenu (initGame now helpHidden)) cmds).gameOver = true →
      (run cw rand (showMenu (initGame now helpHidden)) cmds).paused = true ∧
        (run cw rand (showMenu (initGame now helpHidden)) cmds).playing = true) ∧
    ((run cw rand (showMenu (initGame now helpHidden)) cmds).playing = false →
      (run cw rand (showMenu (initGame now helpHidden)) cmds).paused = true ∧
        (run cw rand (showMenu (initGame now helpHidden)) cmds).gameOver = false) := by
  have h := run_sessionOf_isSome cw rand cmds (showMenu (initGame now helpHidden)) rfl
  obtain ⟨f1, f2⟩ := sessionOf_isSome_flags _ h
  refine ⟨rfl, ?_, f1, f2⟩
  generalize sessionOf (run cw rand (showMenu (initGame now helpHidden)) cmds) = o at h
  cases o with
  | none => exact Bool.noConfusion h
  | some x => cases x <;> simp

/-- C20 at a concrete input: start, play a frame, pause, open and close help, return. -/
theorem flags_encode_session_witness :
    (run 800 halfRand (showMenu (initGame 0 true))
      [Cmd.startClick 0, Cmd.frame 16 noKeys, Cmd.pauseKey, Cmd.helpOpen, Cmd.helpClose,
        Cmd.returnMenuClick]).playing = false ∧
    (run 800 halfRand (showMenu (initGame 0 true))
      [Cmd.startClick 0, Cmd.frame 16 noKeys, Cmd.pauseKey, Cmd.helpOpen, Cmd.helpClose,
        Cmd.returnMenuClick]).paused = true ∧
    (run 800 halfRand (showMenu (initGame 0 true))
      [Cmd.startClick 0, Cmd.frame 16 noKeys, Cmd.pauseKey, Cmd.helpOpen, Cmd.helpClose,
        Cmd.returnMenuClick]).gameOver = false :=
  have hp : (run 800 halfRand (showMenu (initGame 0 true))
      [Cmd.startClick 0, Cmd.frame 16 noKeys, Cmd.pauseKey, Cmd.helpOpen, Cmd.helpClose,
        Cmd.returnMenuClick]).playing = false := rfl
  ⟨hp, (flags_encode_session 800 halfRand 0 true
      [Cmd.startClick 0, Cmd.frame 16 noKeys, Cmd.pauseKey, Cmd.helpOpen, Cmd.helpClose,
        Cmd.returnMenuClick]).2.2.2 hp⟩

/-- C18. Ground landing wins over platform landing. With a platform at
`y ≤ GROUND_Y - 60` (every platform that `maybeSpawnPlatform` creates), the platform-landing
test is false for every hero position, size and velocity once the integrated `y` is at
least `GROUND_Y`; so a tick whose integrated `y` is at least `GROUND_Y` ends with
`y = GROUND_Y`, `vy = 0`, `onGround = true` and `jumpsLeft = 2`, and the two landings never
fire in the same tick. -/
theorem ground_beats_platform (cw : ℚ) (rand : ℕ → ℚ) (dt : ℚ) (k : Keys) (g : Game) (p : Box)
    (hp : g.world.platform = some p) (hmax : p.y ≤ PLATFORM_MAX_Y) :
    (∀ (hero : Hero) (v y1 : ℚ), GROUND_Y ≤ y1 → platformHit hero v (y1 + hero.h) p = false) ∧
    (∀ (hero : Hero) (v y1 : ℚ), groundHit y1 = true →
      platformLanding hero v (y1 + hero.h) (some p) = none) ∧
    (GROUND_Y ≤ (jumpStep k (moveHero cw dt k g)).world.hero.y +
        ((jumpStep k (moveHero cw dt k g)).world.hero.vy + 900 * dt) * dt →
      (update cw rand dt k g).world.hero.y = GROUND_Y ∧
      (update cw rand dt k g).world.hero.vy = 0 ∧
      (update cw rand dt k g).world.hero.onGround = true ∧
      (update cw rand dt k g).world.hero.jumpsLeft = 2) := by
  have key : ∀ (hero : Hero) (v y1 : ℚ), GROUND_Y ≤ y1 →
      platformHit hero v (y1 + hero.h) p = false := by
    intro hero v y1 hy
    apply platformHit_of_low
    simp only [PLATFORM_MAX_Y, GROUND_Y] at hmax hy
    linarith
  have key2 : ∀ (hero : Hero) (v y1 : ℚ), groundHit y1 = true →
      platformLanding hero v (y1 + hero.h) (some p) = none := by
    intro hero v y1 hg
    have hy : GROUND_Y ≤ y1 := by simpa [groundHit] using hg
    simp only [platformLanding, key hero v y1 hy, Bool.false_eq_true, if_false]
  refine ⟨key, key2, ?_⟩
  intro hy
  have hg : groundHit ((jumpStep k (moveHero cw dt k g)).world.hero.y +
      ((jumpStep k (moveHero cw dt k g)).world.hero.vy + 900 * dt) * dt) = true := by
    simpa [groundHit] using hy
  rw [update_hero, hp, physicsHero_ground dt (some p) _ hg (key2 _ _ _ hg)]
  exact ⟨rfl, rfl, rfl, rfl⟩

/-- C18 at a concrete input: the hero falls through ground height under an active platform. -/
theorem ground_beats_platform_witness :
    fallingScene.world.platform = some bandPlatform ∧ bandPlatform.y ≤ PLATFORM_MAX_Y ∧
    GROUND_Y ≤ (jumpStep noKeys (moveHero 800 (1 / 60) noKeys fallingScene)).world.hero.y +
      ((jumpStep noKeys (moveHero 800 (1 / 60) noKeys fallingScene)).world.hero.vy +
        900 * (1 / 60)) * (1 / 60) ∧
    (update 800 halfRand (1 / 60) noKeys fallingScene).world.hero.y = GROUND_Y ∧
    (update 800 halfRand (1 / 60) noKeys fallingScene).world.hero.vy = 0 ∧
    (update 800 halfRand (1 / 60) noKeys fallingScene).world.hero.onGround = true ∧
    (update 800 halfRand (1 / 60) noKeys fallingScene).world.hero.jumpsLeft = 2 :=
  have hm : bandPlatform.y ≤ PLATFORM_MAX_Y := by
    norm_num [bandPlatform, PLATFORM_MAX_Y, GROUND_Y]
  have hy : GROUND_Y ≤
      (jumpStep noKeys (moveHero 800 (1 / 60) noKeys fallingScene)).world.hero.y +
      ((jumpStep noKeys (moveHero 800 (1 / 60) noKeys fallingScene)).world.hero.vy +
        900 * (1 / 60)) * (1 / 60) := by
    norm_num [jumpStep, jumpTaken, moveHero, noKeys, fallingScene, initGame, GROUND_Y]
  ⟨rfl, hm, hy,
    (ground_beats_platform 800 halfRand (1 / 60) noKeys fallingScene bandPlatform rfl hm).2.2 hy⟩

/-- C19. A hero standing on the platform stays on it: in a tick with `0 ≤ dt ≤ 0.033`, no
rising edge of the jump key, a platform at `y ≤ GROUND_Y - 60`, the hero at `y = platform.y`
with `vy = 0`, and the moved hero horizontally over the platform, the tick ends with
`y = platform.y`, `vy = 0`, `onGround = true` and `jumpsLeft = 2`. -/
theorem stays_on_platform (cw : ℚ) (rand : ℕ → ℚ) (dt : ℚ) (k : Keys) (g : Game) (p : Box)
    (h0 : 0 ≤ dt) (h1 : dt ≤ 33 / 1000)
    (hedge : ¬ (k.space = true ∧ g.spaceWasDown = false))
    (hp : g.world.platform = some p) (hmax : p.y ≤ GROUND_Y - 60)
    (hy : g.world.hero.y = p.y) (hv : g.world.hero.vy = 0)
    (hover1 : (moveHero cw dt k g).world.hero.x + g.world.hero.w > p.x)
    (hover2 : (moveHero cw dt k g).world.hero.x < p.x + p.w) :
    (update cw rand dt k g).world.hero.y = p.y ∧
    (update cw rand dt k g).world.hero.vy = 0 ∧
    (update cw rand dt k g).world.hero.onGround = true ∧
    (update cw rand dt k g).world.hero.jumpsLeft = 2 := by
  have ht : jumpTaken k (moveHero cw dt k g) = false := by
    rw [jumpTaken_moveHero]
    cases hs : k.space
    · simp
    · cases hw : g.spaceWasDown
      · exact absurd ⟨hs, hw⟩ hedge
      · simp
  have hy1 : (moveHero cw dt k g).world.hero.y = p.y := hy
  have hv1 : (moveHero cw dt k g).world.hero.vy = 0 := hv
  have hsq : dt * dt ≤ 33 / 1000 * (33 / 1000) := mul_le_mul h1 h1 h0 (by norm_num)
  have hsq0 : 0 ≤ dt * dt := mul_self_nonneg dt
  have hg : groundHit ((moveHero cw dt k g).world.hero.y +
      ((moveHero cw dt k g).world.hero.vy + 900 * dt) * dt) = false := by
    rw [hy1, hv1]
    simp only [GROUND_Y] at hmax
    simp only [groundHit, GROUND_Y, decide_eq_false_iff_not, ge_iff_le, not_le]
    nlinarith
  have hl : platformLanding
      { (moveHero cw dt k g).world.hero with
        vy := (moveHero cw dt k g).world.hero.vy + 900 * dt,
        y := (moveHero cw dt k g).world.hero.y +
          ((moveHero cw dt k g).world.hero.vy + 900 * dt) * dt }
      ((moveHero cw dt k g).world.hero.vy + 900 * dt)
      ((moveHero cw dt k g).world.hero.y +
        ((moveHero cw dt k g).world.hero.vy + 900 * dt) * dt +
        (moveHero cw dt k g).world.hero.h) (some p) = some p := by
    have hit := platformHit_of_band
      { (moveHero cw dt k g).world.hero with
        vy := (moveHero cw dt k g).world.hero.vy + 900 * dt,
        y := (moveHero cw dt k g).world.hero.y +
          ((moveHero cw dt k g).world.hero.vy + 900 * dt) * dt }
      ((moveHero cw dt k g).world.hero.vy + 900 * dt)
      ((moveHero cw dt k g).world.hero.y +
        ((moveHero cw dt k g).world.hero.vy + 900 * dt) * dt +
        (moveHero cw dt k g).world.hero.h) p
      (by rw [hv1]; linarith) hover1 hover2
      (by
        rw [hy1, hv1]
        show p.y + g.world.hero.h - 10 ≤ p.y + (0 + 900 * dt) * dt + g.world.hero.h
        nlinarith)
      (by
        rw [hy1, hv1]
        show p.y + (0 + 900 * dt) * dt + g.world.hero.h ≤ p.y + g.world.hero.h + 10
        nlinarith)
    simp only [platformLanding, hit, if_true]
  rw [update_hero, jumpStep_hero_of_not_taken k _ ht, hp,
    physicsHero_platform dt (some p) p _ hg hl]
  exact ⟨rfl, rfl, rfl, rfl⟩

/-- C19 at a concrete input: the hero stands on the platform for one frame. -/
theorem stays_on_platform_witness :
    ((0 : ℚ) ≤ 1 / 60 ∧ (1 / 60 : ℚ) ≤ 33 / 1000) ∧
    ¬ (noKeys.space = true ∧ standingScene.spaceWasDown = false) ∧
    standingScene.world.platform = some midPlatform ∧ midPlatform.y ≤ GROUND_Y - 60 ∧
    standingScene.world.hero.y = midPlatform.y ∧ standingScene.world.hero.vy = 0 ∧
    (update 800 halfRand (1 / 60) noKeys standingScene).world.hero.y = midPlatform.y ∧
    (update 800 halfRand (1 / 60) noKeys standingScene).world.hero.vy = 0 ∧
    (update 800 halfRand (1 / 60) noKeys standingScene).world.hero.onGround = true ∧
    (update 800 halfRand (1 / 60) noKeys standingScene).world.hero.jumpsLeft = 2 :=
  have hd : (0 : ℚ) ≤ 1 / 60 ∧ (1 / 60 : ℚ) ≤ 33 / 1000 := by norm_num
  have he : ¬ (noKeys.space = true ∧ standingScene.spaceWasDown = false) := by decide
  have hm : midPlatform.y ≤ GROUND_Y - 60 := by norm_num [midPlatform, GROUND_Y]
  have hy : standingScene.world.hero.y = midPlatform.y := rfl
  ⟨hd, he, rfl, hm, hy, rfl,
    stays_on_platform 800 halfRand (1 / 60) noKeys standingScene midPlatform hd.1 hd.2 he rfl hm
      hy rfl
      (by norm_num [moveHero, noKeys, standingScene, initGame, midPlatform])
      (by norm_num [moveHero, noKeys, standingScene, initGame, midPlatform])⟩

end PixelRunner
